import Mathlib

/-!
Shallow embedding of `otp-updater.py` (class `GTFSUpdater` and `main`).

Modelling conventions:
* Byte contents are `List Nat`; timestamps are `Int` (timezone-naive instants,
  matching `parser.parse(mod, ignoretz=True)` and `datetime.fromtimestamp`).
* The filesystem visible to the updater is an association list from path
  strings to `FileData` (content plus modification time), together with a list
  of existing directories.  `shutil.copyfile` installs the fetched content at
  the destination path with the current run time as the new mtime.
* External effects are oracles collected in `Env`: the outcome of
  `urllib.request.urlopen` inside `_fetch_file` (`fetchOutcome`), the HEAD
  exchange of `_get_last_modified_for_url` (`head`), the direct
  `open(u.path, 'rb')` used for `file:` URLs (`localRead`), the SHA-256 digest
  used by `_sha256hash`/`_is_files_identical` (`hash`, an arbitrary function of
  the content — the program only ever compares digests for equality), and the
  exit code of the external OTP build command (`build`).
* Python exceptions that escape a function are modelled with `Except Unit`;
  the state component is still returned so that partial effects before the
  raise are observable.  `_found_error` is an attribute that does not exist
  until first assigned, hence `Option Bool` starting at `none`.
* Log files written by `_update_graph` live outside the cache tree and are not
  modelled; `print` calls are not modelled.  The instrumentation fields
  `writes`, `fetchLog` and `headLog` record which cache paths were written by
  `shutil.copyfile`, which URLs `_fetch_file` was invoked on, and which URLs
  were probed with a HEAD request.
-/

deriving instance DecidableEq for Except

namespace OtpUpdater

abbrev Content := List Nat

structure FileData where
  content : Content
  mtime : Int
deriving Repr, DecidableEq

abbrev Files := List (String × FileData)

/-- Lookup of a path in the modelled filesystem (`os.path.exists` + `open`). -/
def getFile : Files → String → Option FileData
  | [], _ => none
  | e :: fs, p => if e.1 = p then some e.2 else getFile fs p

/-- Install content at a path (`shutil.copyfile` destination side). -/
def setFile (fs : Files) (p : String) (d : FileData) : Files :=
  (p, d) :: fs.filter (fun e => decide (e.1 ≠ p))

/-- First character is the path separator (`os.path.isabs`). -/
def isAbs (s : String) : Bool :=
  s.data.head? = some '/'

def endsSlash (s : String) : Bool :=
  s.data.getLast? = some '/'

/-- `os.path.join` on two components: an absolute second component discards
the first; otherwise the pieces are joined with a single separator. -/
def pjoin (a b : String) : String :=
  if isAbs b then b
  else if a = "" then b
  else if endsSlash a then a ++ b
  else a ++ "/" ++ b

def takeUntilColon : List Char → List Char
  | [] => []
  | c :: cs => if c = ':' then [] else c :: takeUntilColon cs

def hasColon : List Char → Bool
  | [] => false
  | c :: cs => if c = ':' then true else hasColon cs

/-- `urlparse(url).scheme`: the (lower-cased) part before the first colon,
empty when the URL has no colon. -/
def urlScheme (url : String) : String :=
  if hasColon url.data then ⟨(takeUntilColon url.data).map Char.toLower⟩ else ""

/-- `urlparse(url).path` for `file:` URLs: what remains after the scheme
marker.  Only used to key the `localRead` oracle. -/
def urlPath (url : String) : String :=
  if ("file://".data.isPrefixOf url.data) then ⟨url.data.drop 7⟩
  else if ("file:".data.isPrefixOf url.data) then ⟨url.data.drop 5⟩
  else url

/-- Result of the HEAD exchange performed by `_get_last_modified_for_url`:
either a transport exception (raised by `conn.request`/`conn.getresponse`),
or a status code together with the optional `last-modified` header.  A header
value is `some (some t)` when `dateutil.parser.parse` succeeds on it with
result `t`, and `some none` when parsing would raise. -/
inductive HeadResponse where
  | exn : HeadResponse
  | status : Nat → Option (Option Int) → HeadResponse
deriving Repr, DecidableEq

/-- The external world of one run. -/
structure Env where
  fetchOutcome : String → Option Content
  head : String → HeadResponse
  localRead : String → Option Content
  hash : Content → Content
  build : String → Int

/-- The resolved options bundle (after `read_config` and defaulting). -/
structure Opts where
  baseDir : String
  force : Bool
  keep : Bool
  onlyGraph : Option String

/-- Mutable run state: the filesystem, `self._updated_graphs`,
`self._found_error` (unset = `none`), plus instrumentation logs. -/
structure St where
  files : Files
  dirs : List String
  updated : List String
  foundError : Option Bool
  writes : List String
  fetchLog : List String
  headLog : List String
deriving Repr, DecidableEq

def initSt (fs : Files) (ds : List String) : St :=
  ⟨fs, ds, [], none, [], [], []⟩

def graphDirPath (opts : Opts) (g : String) : String :=
  pjoin (pjoin opts.baseDir "graphs") g

def zipPath (opts : Opts) (g f : String) : String :=
  pjoin (graphDirPath opts g) (f ++ ".zip")

def infoPath (opts : Opts) (g f : String) : String :=
  pjoin (graphDirPath opts g) (f ++ "_feed_info.txt")

/-- `os.path.exists` over the modelled filesystem. -/
def pathExists (st : St) (p : String) : Bool :=
  decide (getFile st.files p ≠ none) || decide (p ∈ st.dirs)

/-- `_create_graph_dir`. -/
def createGraphDir (opts : Opts) (g : String) (st : St) : St :=
  let path := graphDirPath opts g
  if pathExists st path then st else { st with dirs := st.dirs ++ [path] }

/-- `self._updated_graphs.add(graph)` (a Python set add). -/
def addGraph (g : String) (st : St) : St :=
  if g ∈ st.updated then st else { st with updated := st.updated ++ [g] }

/-- `shutil.copyfile(src, dst)` where the source holds content `c`: the
destination receives the content with the current time as its new mtime. -/
def copyFile (p : String) (c : Content) (now : Int) (st : St) : St :=
  { st with files := setFile st.files p ⟨c, now⟩, writes := st.writes ++ [p] }

/-- `_fetch_file(url)`: on success returns the downloaded content; on a
non-200 status or any exception the bare `except` turns the failure into a
`None` return and sets `self._found_error = True`.  Never raises. -/
def fetchFile (env : Env) (url : String) (st : St) : Option Content × St :=
  let st := { st with fetchLog := st.fetchLog ++ [url] }
  match env.fetchOutcome url with
  | some c => (some c, st)
  | none => (none, { st with foundError := some true })

/-- Pure result of `_get_last_modified_for_url(url)`: `.error` models an
uncaught exception (transport failure during the HEAD exchange, or
`parser.parse` raising on an unparsable header); on status 200 a missing
header yields `none`, a parsable header its parsed timestamp; any other
status yields `none`. -/
def probeResult (env : Env) (url : String) : Except Unit (Option Int) :=
  match env.head url with
  | .exn => .error ()
  | .status code mod =>
    if code = 200 then
      match mod with
      | none => .ok none
      | some (some t) => .ok (some t)
      | some none => .error ()
    else .ok none

/-- `_get_last_modified_for_url` with its instrumentation: the HEAD request
issued is recorded in `headLog`. -/
def getLastModifiedForUrl (env : Env) (url : String) (st : St) :
    Except Unit (Option Int) × St :=
  (probeResult env url, { st with headLog := st.headLog ++ [url] })

/-- The feed-info block of `_update_feed` (lines 165-182).  Returns `true`
when the fetched feed info is identical to the stored snapshot, which makes
`_update_feed` return early; otherwise stores the fetched snapshot (when the
fetch succeeded) and returns `false`. -/
def infoStep (env : Env) (opts : Opts) (now : Int) (g f iu : String) (st : St) :
    Bool × St :=
  let ip := infoPath opts g f
  match fetchFile env iu st with
  | (none, st) => (false, st)
  | (some c, st) =>
    match getFile st.files ip with
    | some stored =>
      if env.hash c = env.hash stored.content then (true, st)
      else (false, copyFile ip c now st)
    | none => (false, copyFile ip c now st)

/-- Steps 5-6 of `_update_feed`: compare the newly obtained content with the
local copy; replace and mark the graph when they differ or no local copy
exists. -/
def compareAndInstall (env : Env) (opts : Opts) (now : Int) (g : String)
    (lp : String) (c : Content) (st : St) : St :=
  match getFile st.files lp with
  | some loc =>
    if env.hash loc.content = env.hash c then st
    else addGraph g (copyFile lp c now st)
  | none => addGraph g (copyFile lp c now st)

/-- The last-modified pre-check of `_update_feed` (lines 186-197): for
http/https URLs probe the remote timestamp; when a local copy exists and the
probe produced a timestamp not later than the local mtime, skip the feed
(`.ok true`).  A raising probe propagates. -/
def probeStep (env : Env) (opts : Opts) (g f url : String) (st : St) :
    Except Unit Bool × St :=
  if urlScheme url = "https" ∨ urlScheme url = "http" then
    match getLastModifiedForUrl env url st with
    | (.error _, st) => (.error (), st)
    | (.ok remote, st) =>
      match getFile st.files (zipPath opts g f) with
      | some loc =>
        match remote with
        | some t => if t ≤ loc.mtime then (.ok true, st) else (.ok false, st)
        | none => (.ok false, st)
      | none => (.ok false, st)
  else (.ok false, st)

/-- Steps 4-6 of `_update_feed`: obtain the feed content (a direct local read
for `file:` URLs — whose failure raises — and `_fetch_file` otherwise) and
run the content comparison.  A failed `_fetch_file` has already flagged the
error and the feed is left untouched. -/
def fetchAndCompare (env : Env) (opts : Opts) (now : Int) (g f url : String)
    (st : St) : Except Unit Unit × St :=
  if urlScheme url = "file" then
    match env.localRead (urlPath url) with
    | none => (.error (), st)
    | some c => (.ok (), compareAndInstall env opts now g (zipPath opts g f) c st)
  else
    match fetchFile env url st with
    | (none, st) => (.ok (), st)
    | (some c, st) => (.ok (), compareAndInstall env opts now g (zipPath opts g f) c st)

/-- Probe then fetch-and-compare (lines 183-221 of `_update_feed`). -/
def mainPart (env : Env) (opts : Opts) (now : Int) (g f url : String)
    (st : St) : Except Unit Unit × St :=
  match probeStep env opts g f url st with
  | (.error _, st) => (.error (), st)
  | (.ok true, st) => (.ok (), st)
  | (.ok false, st) => fetchAndCompare env opts now g f url st

/-- The only-process-graph filter: processing proceeds unless the option is
set to a non-empty graph name different from this row's graph
(`if only_process_graph and only_process_graph != graph: return`). -/
def passFilter (opts : Opts) (g : String) : Bool :=
  match opts.onlyGraph with
  | none => true
  | some og => decide (og = "") || decide (og = g)

/-- `_update_feed(row)` for a row that reached it (3 or 4 fields). -/
def updateFeed (env : Env) (opts : Opts) (now : Int) (row : List String)
    (st : St) : Except Unit Unit × St :=
  let g := row.getD 0 ""
  let f := row.getD 1 ""
  let url := row.getD 2 ""
  if passFilter opts g then
    let st := createGraphDir opts g st
    let st := if opts.force then addGraph g st else st
    if row.length = 4 then
      match infoStep env opts now g f (row.getD 3 "") st with
      | (true, st) => (.ok (), st)
      | (false, st) => mainPart env opts now g f url st
    else mainPart env opts now g f url st
  else (.ok (), st)

/-- `row[0].startswith('#')`. -/
def startsHash (s : String) : Bool :=
  s.data.head? = some '#'

/-- The record loop of `update_feeds`: empty rows and rows whose first field
starts with `#` are skipped silently; rows with fewer than 3 or more than 4
fields are skipped with the error flag set; other rows go to `_update_feed`.
An exception escaping `_update_feed` aborts the loop. -/
def updateRows (env : Env) (opts : Opts) (now : Int) :
    List (List String) → St → Except Unit Unit × St
  | [], st => (.ok (), st)
  | row :: rest, st =>
    if row.length = 0 then updateRows env opts now rest st
    else if startsHash (row.getD 0 "") then updateRows env opts now rest st
    else if row.length < 3 ∨ row.length > 4 then
      updateRows env opts now rest { st with foundError := some true }
    else
      match updateFeed env opts now row st with
      | (.ok _, st) => updateRows env opts now rest st
      | (.error e, st) => (.error e, st)

/-- `_update_graph(graph)`: run the build command; on a non-zero exit set the
error flag and, unless keep-failed-graphs is set, call
`_delete_graph_dir(graph_path)` — note the argument is the full path, which
`_delete_graph_dir` joins again under `{base}/graphs/`. -/
def deleteGraphDir (opts : Opts) (g : String) (st : St) : St :=
  let path := graphDirPath opts g
  if pathExists st path then
    { st with
      dirs := st.dirs.filter (fun d => decide (¬(d = path ∨ (path ++ "/").data.isPrefixOf d.data))),
      files := st.files.filter (fun e => decide (¬(e.1 = path ∨ (path ++ "/").data.isPrefixOf e.1.data))) }
  else st

def updateGraph (env : Env) (opts : Opts) (g : String) (st : St) : St :=
  let graphPath := graphDirPath opts g
  let retcode := env.build graphPath
  if retcode = 0 then st
  else
    let st := { st with foundError := some true }
    if opts.keep then st else deleteGraphDir opts graphPath st

/-- `_update_graphs`: iterate the accumulated graph set. -/
def updateGraphs (env : Env) (opts : Opts) (st : St) : St :=
  st.updated.foldl (fun s g => updateGraph env opts g s) st

/-- `update_feeds`: the record loop followed by `_update_graphs` (an exception
in the loop propagates and the rebuild phase never runs). -/
def updateFeeds (env : Env) (opts : Opts) (now : Int)
    (rows : List (List String)) (st : St) : Except Unit Unit × St :=
  match updateRows env opts now rows st with
  | (.ok _, st) => (.ok (), updateGraphs env opts st)
  | (.error e, st) => (.error e, st)

/-- In `main`, the source evaluates `updater.found_error` without calling it
(`return 255 if updater.found_error else 0`): the condition is the bound
method object itself, and a bound method object is always truthy in Python. -/
def boundMethodTruthy : Bool := true

/-- `found_error()` as actually defined: returns `self._found_error`, raising
`AttributeError` when the attribute was never assigned. -/
def foundErrorCall (st : St) : Except Unit Bool :=
  match st.foundError with
  | some b => .ok b
  | none => .error ()

/-- `main(options)`: run the updater and derive the exit status from
`updater.found_error` (the bound method, see `boundMethodTruthy`). -/
def mainExit (env : Env) (opts : Opts) (now : Int)
    (rows : List (List String)) (fs : Files) (ds : List String) :
    Except Unit Nat :=
  match updateFeeds env opts now rows (initSt fs ds) with
  | (.ok _, _) => .ok (if boundMethodTruthy then 255 else 0)
  | (.error e, _) => .error e

/-- The skip condition of the last-modified pre-check, as a pure predicate on
the probe result and the local file entry: skip exactly when a local copy
exists and the probe produced a timestamp not later than its mtime. -/
def probeSkips (remote : Option Int) (loc : Option FileData) : Bool :=
  match loc, remote with
  | some l, some t => decide (t ≤ l.mtime)
  | _, _ => false

/-- Stable content obtained for the main feed in steps 4-6: a direct local
read for `file:` URLs, the fetch outcome otherwise. -/
def mainContent (env : Env) (url : String) : Option Content :=
  if urlScheme url = "file" then env.localRead (urlPath url) else env.fetchOutcome url

/-- The cache paths a feed row can write: its payload and feed-info paths. -/
def rowTargets (opts : Opts) (row : List String) : List String :=
  [zipPath opts (row.getD 0 "") (row.getD 1 ""),
   infoPath opts (row.getD 0 "") (row.getD 1 "")]

/-- Rows of a feed list write to pairwise disjoint cache paths. -/
def disjointRows (opts : Opts) (rows : List (List String)) : Prop :=
  List.Pairwise (fun r r' => ∀ p ∈ rowTargets opts r, p ∉ rowTargets opts r') rows

/-! Concrete environments, options and states used to evaluate the model on
closed inputs. -/

def benignOpts : Opts := ⟨"/otp", false, false, none⟩

def forceOpts : Opts := ⟨"/otp", true, false, none⟩

def relBaseOpts : Opts := ⟨"otp", false, false, none⟩

/-- An environment in which every remote interaction fails: fetches raise or
return bad statuses, HEAD exchanges raise, local reads fail. -/
def trivEnv : Env := ⟨fun _ => none, fun _ => .exn, fun _ => none, id, fun _ => 0⟩

/-- One ftp feed URL serving content `[7]`. -/
def c4Env : Env :=
  ⟨fun u => if u = "ftp://u" then some [7] else none, fun _ => .exn,
   fun _ => none, id, fun _ => 0⟩

def c4St : St := initSt [("/otp/graphs/A/f.zip", ⟨[7], 0⟩)] ["/otp/graphs/A"]

/-- One feed-info URL serving content `[3]`. -/
def c5Env : Env :=
  ⟨fun u => if u = "iu" then some [3] else none, fun _ => .exn,
   fun _ => none, id, fun _ => 0⟩

def c5St : St := initSt [("/otp/graphs/A/f_feed_info.txt", ⟨[3], 0⟩)] ["/otp/graphs/A"]

/-- Every build command fails. -/
def c8Env : Env := ⟨fun _ => none, fun _ => .exn, fun _ => none, id, fun _ => 1⟩

def c8St : St := ⟨[("otp/graphs/A/f.zip", ⟨[1], 0⟩)], ["otp/graphs/A"], ["A"], none, [], [], []⟩

def c8wSt : St := ⟨[], ["/otp/graphs/A"], ["A"], none, [], [], []⟩

/-- One ftp feed URL serving content `[1]`, every build failing. -/
def c9Env : Env :=
  ⟨fun u => if u = "ftp://u" then some [1] else none, fun _ => .exn,
   fun _ => none, id, fun _ => 1⟩

/-- One ftp feed URL serving content `[1]`, builds succeeding. -/
def c9wEnv : Env :=
  ⟨fun u => if u = "ftp://u" then some [1] else none, fun _ => .exn,
   fun _ => none, id, fun _ => 0⟩

/-- Every HEAD exchange yields status 200 with a header parsing to `3`. -/
def probe200Env : Env :=
  ⟨fun _ => none, fun _ => .status 200 (some (some 3)), fun _ => none, id, fun _ => 0⟩

/-- One feed-info URL serving content `[4]`. -/
def c10Env : Env :=
  ⟨fun u => if u = "iu" then some [4] else none, fun _ => .exn,
   fun _ => none, id, fun _ => 0⟩

/-- The on-disk state after one complete invocation of the program over the
given feed rows, starting from filesystem `fs`/`ds`. -/
def firstRun (env : Env) (opts : Opts) (now : Int)
    (rows : List (List String)) (fs : Files) (ds : List String) : St :=
  (updateFeeds env opts now rows (initSt fs ds)).2

/-- A second invocation immediately after `firstRun`: it starts from the
files and directories the first run left on disk, with fresh in-memory state
(empty updated-graph set, unset error flag, empty logs). -/
def secondRun (env : Env) (opts : Opts) (now₁ now₂ : Int)
    (rows : List (List String)) (fs : Files) (ds : List String) : St :=
  (updateFeeds env opts now₂ rows
    (initSt (firstRun env opts now₁ rows fs ds).files
            (firstRun env opts now₁ rows fs ds).dirs)).2

/-! ### Basic lemmas: filesystem model -/

theorem getFile_filter_ne (fs : Files) (p q : String) :
    getFile (fs.filter (fun e => decide (e.1 ≠ p))) q
      = if q = p then none else getFile fs q := by
  simp only [decide_not]
  induction fs with
  | nil => simp [getFile]
  | cons e fs ih =>
    by_cases hqp : q = p
    · subst hqp
      by_cases hep : e.1 = q
      · simp [List.filter_cons, hep, ih]
      · simp [List.filter_cons, hep, getFile, ih]
    · by_cases hep : e.1 = p
      · have heq : ¬ e.1 = q := fun h => hqp (h ▸ hep)
        have hpq : ¬ p = q := fun h => hqp h.symm
        simp [List.filter_cons, hep, getFile, heq, ih, hqp, hpq]
      · by_cases heq : e.1 = q
        · simp [List.filter_cons, hep, getFile, heq, hqp]
        · simp [List.filter_cons, hep, getFile, heq, ih, hqp]

theorem getFile_setFile (fs : Files) (p q : String) (d : FileData) :
    getFile (setFile fs p d) q = if q = p then some d else getFile fs q := by
  have h := getFile_filter_ne fs p q
  unfold setFile
  by_cases hpq : p = q
  · subst hpq; simp [getFile]
  · have hqp : ¬ q = p := fun hh => hpq hh.symm
    rw [if_neg hqp]
    show (if p = q then some d
        else getFile (fs.filter fun e => decide (e.1 ≠ p)) q) = getFile fs q
    rw [if_neg hpq, h, if_neg hqp]

theorem getFile_setFile_same (fs : Files) (p : String) (d : FileData) :
    getFile (setFile fs p d) p = some d := by
  simp [getFile_setFile]

theorem getFile_setFile_other (fs : Files) (p q : String) (d : FileData)
    (h : q ≠ p) : getFile (setFile fs p d) q = getFile fs q := by
  simp [getFile_setFile, h]

/-! ### Projection lemmas for the state transformers -/

@[simp] theorem createGraphDir_files (opts : Opts) (g : String) (st : St) :
    (createGraphDir opts g st).files = st.files := by
  simp only [createGraphDir]; split <;> rfl

@[simp] theorem createGraphDir_updated (opts : Opts) (g : String) (st : St) :
    (createGraphDir opts g st).updated = st.updated := by
  simp only [createGraphDir]; split <;> rfl

@[simp] theorem createGraphDir_foundError (opts : Opts) (g : String) (st : St) :
    (createGraphDir opts g st).foundError = st.foundError := by
  simp only [createGraphDir]; split <;> rfl

@[simp] theorem createGraphDir_writes (opts : Opts) (g : String) (st : St) :
    (createGraphDir opts g st).writes = st.writes := by
  simp only [createGraphDir]; split <;> rfl

@[simp] theorem createGraphDir_fetchLog (opts : Opts) (g : String) (st : St) :
    (createGraphDir opts g st).fetchLog = st.fetchLog := by
  simp only [createGraphDir]; split <;> rfl

@[simp] theorem createGraphDir_headLog (opts : Opts) (g : String) (st : St) :
    (createGraphDir opts g st).headLog = st.headLog := by
  simp only [createGraphDir]; split <;> rfl

@[simp] theorem addGraph_files (g : String) (st : St) :
    (addGraph g st).files = st.files := by
  unfold addGraph; split <;> rfl

@[simp] theorem addGraph_dirs (g : String) (st : St) :
    (addGraph g st).dirs = st.dirs := by
  unfold addGraph; split <;> rfl

@[simp] theorem addGraph_foundError (g : String) (st : St) :
    (addGraph g st).foundError = st.foundError := by
  unfold addGraph; split <;> rfl

@[simp] theorem addGraph_writes (g : String) (st : St) :
    (addGraph g st).writes = st.writes := by
  unfold addGraph; split <;> rfl

@[simp] theorem addGraph_fetchLog (g : String) (st : St) :
    (addGraph g st).fetchLog = st.fetchLog := by
  unfold addGraph; split <;> rfl

@[simp] theorem addGraph_headLog (g : String) (st : St) :
    (addGraph g st).headLog = st.headLog := by
  unfold addGraph; split <;> rfl

theorem addGraph_mem_self (g : String) (st : St) : g ∈ (addGraph g st).updated := by
  unfold addGraph; split
  · assumption
  · simp

theorem addGraph_mem_mono (g g' : String) (st : St) (h : g' ∈ st.updated) :
    g' ∈ (addGraph g st).updated := by
  unfold addGraph; split
  · exact h
  · simp [h]

theorem addGraph_mem_of (g g' : String) (st : St)
    (h : g' ∈ (addGraph g st).updated) : g' ∈ st.updated ∨ g' = g := by
  unfold addGraph at h; split at h
  · exact Or.inl h
  · rcases List.mem_append.mp h with h | h
    · exact Or.inl h
    · simp at h; exact Or.inr h

@[simp] theorem copyFile_dirs (p : String) (c : Content) (now : Int) (st : St) :
    (copyFile p c now st).dirs = st.dirs := rfl

@[simp] theorem copyFile_updated (p : String) (c : Content) (now : Int) (st : St) :
    (copyFile p c now st).updated = st.updated := rfl

@[simp] theorem copyFile_foundError (p : String) (c : Content) (now : Int) (st : St) :
    (copyFile p c now st).foundError = st.foundError := rfl

@[simp] theorem copyFile_fetchLog (p : String) (c : Content) (now : Int) (st : St) :
    (copyFile p c now st).fetchLog = st.fetchLog := rfl

@[simp] theorem copyFile_headLog (p : String) (c : Content) (now : Int) (st : St) :
    (copyFile p c now st).headLog = st.headLog := rfl

theorem copyFile_files (p : String) (c : Content) (now : Int) (st : St) :
    (copyFile p c now st).files = setFile st.files p ⟨c, now⟩ := rfl

theorem copyFile_writes (p : String) (c : Content) (now : Int) (st : St) :
    (copyFile p c now st).writes = st.writes ++ [p] := rfl

theorem fetchFile_fst (env : Env) (url : String) (st : St) :
    (fetchFile env url st).1 = env.fetchOutcome url := by
  simp only [fetchFile]
  cases env.fetchOutcome url <;> rfl

@[simp] theorem fetchFile_files (env : Env) (url : String) (st : St) :
    (fetchFile env url st).2.files = st.files := by
  simp only [fetchFile]; cases env.fetchOutcome url <;> rfl

@[simp] theorem fetchFile_dirs (env : Env) (url : String) (st : St) :
    (fetchFile env url st).2.dirs = st.dirs := by
  simp only [fetchFile]; cases env.fetchOutcome url <;> rfl

@[simp] theorem fetchFile_updated (env : Env) (url : String) (st : St) :
    (fetchFile env url st).2.updated = st.updated := by
  simp only [fetchFile]; cases env.fetchOutcome url <;> rfl

@[simp] theorem fetchFile_writes (env : Env) (url : String) (st : St) :
    (fetchFile env url st).2.writes = st.writes := by
  simp only [fetchFile]; cases env.fetchOutcome url <;> rfl

@[simp] theorem fetchFile_headLog (env : Env) (url : String) (st : St) :
    (fetchFile env url st).2.headLog = st.headLog := by
  simp only [fetchFile]; cases env.fetchOutcome url <;> rfl

@[simp] theorem fetchFile_fetchLog (env : Env) (url : String) (st : St) :
    (fetchFile env url st).2.fetchLog = st.fetchLog ++ [url] := by
  simp only [fetchFile]; cases env.fetchOutcome url <;> rfl

theorem fetchFile_foundError_some (env : Env) (url : String) (st : St)
    (c : Content) (h : env.fetchOutcome url = some c) :
    (fetchFile env url st).2.foundError = st.foundError := by
  simp only [fetchFile, h]

theorem fetchFile_foundError_none (env : Env) (url : String) (st : St)
    (h : env.fetchOutcome url = none) :
    (fetchFile env url st).2.foundError = some true := by
  simp only [fetchFile, h]

theorem fetchFile_some (env : Env) (url : String) (st : St) (c : Content)
    (h : env.fetchOutcome url = some c) :
    fetchFile env url st = (some c, { st with fetchLog := st.fetchLog ++ [url] }) := by
  simp only [fetchFile, h]

theorem fetchFile_none (env : Env) (url : String) (st : St)
    (h : env.fetchOutcome url = none) :
    fetchFile env url st
      = (none, { st with fetchLog := st.fetchLog ++ [url], foundError := some true }) := by
  simp only [fetchFile, h]

/-- `probeStep` unpacked: a HEAD probe happens exactly for http/https URLs,
its raising propagates, and the skip verdict is `probeSkips`. -/
theorem probeStep_eq (env : Env) (opts : Opts) (g f url : String) (st : St) :
    probeStep env opts g f url st =
      if urlScheme url = "https" ∨ urlScheme url = "http" then
        match probeResult env url with
        | .error _ => (.error (), { st with headLog := st.headLog ++ [url] })
        | .ok remote =>
          (.ok (probeSkips remote (getFile st.files (zipPath opts g f))),
           { st with headLog := st.headLog ++ [url] })
      else (.ok false, st) := by
  unfold probeStep getLastModifiedForUrl
  split
  · cases probeResult env url with
    | error e => rfl
    | ok remote =>
      cases hl : getFile st.files (zipPath opts g f) with
      | none => cases remote <;> simp [probeSkips, hl]
      | some loc =>
        cases remote with
        | none => simp [probeSkips, hl]
        | some t =>
          by_cases ht : t ≤ loc.mtime <;> simp [probeSkips, hl, ht]
  · rfl

theorem compareAndInstall_identical (env : Env) (opts : Opts) (now : Int)
    (g lp : String) (c : Content) (st : St) (loc : FileData)
    (hl : getFile st.files lp = some loc)
    (hh : env.hash loc.content = env.hash c) :
    compareAndInstall env opts now g lp c st = st := by
  unfold compareAndInstall
  rw [hl]
  simp [hh]

theorem compareAndInstall_replace (env : Env) (opts : Opts) (now : Int)
    (g lp : String) (c : Content) (st : St) (loc : FileData)
    (hl : getFile st.files lp = some loc)
    (hh : ¬ env.hash loc.content = env.hash c) :
    compareAndInstall env opts now g lp c st
      = addGraph g (copyFile lp c now st) := by
  unfold compareAndInstall
  rw [hl]
  simp [hh]

theorem compareAndInstall_new (env : Env) (opts : Opts) (now : Int)
    (g lp : String) (c : Content) (st : St)
    (hl : getFile st.files lp = none) :
    compareAndInstall env opts now g lp c st
      = addGraph g (copyFile lp c now st) := by
  unfold compareAndInstall
  rw [hl]

/-! ### Path string lemmas -/

theorem data_append (s t : String) : (s ++ t).data = s.data ++ t.data := by
  cases s; cases t; rfl

theorem length_append' (s t : String) : (s ++ t).length = s.length + t.length := by
  show (s ++ t).data.length = s.data.length + t.data.length
  rw [data_append, List.length_append]

theorem ne_of_length_ne (s t : String) (h : s.length ≠ t.length) : s ≠ t :=
  fun he => h (he ▸ rfl)

theorem isAbs_append (s t : String) :
    isAbs (s ++ t) = if s.data = [] then isAbs t else isAbs s := by
  unfold isAbs
  rw [data_append]
  cases hs : s.data with
  | nil => simp
  | cons c cs => simp

theorem pjoin_right_ne (a b c : String) (habs : isAbs b = isAbs c)
    (hlen : b.length ≠ c.length) : pjoin a b ≠ pjoin a c := by
  unfold pjoin
  rw [← habs]
  cases hb : isAbs b
  · simp only [Bool.false_eq_true, if_false]
    by_cases ha : a = ""
    · simp only [ha, if_true]
      exact ne_of_length_ne _ _ hlen
    · simp only [ha, if_false]
      cases hs : endsSlash a
      · simp only [Bool.false_eq_true, if_false]
        apply ne_of_length_ne
        simp only [length_append']
        omega
      · simp only [if_true]
        apply ne_of_length_ne
        simp only [length_append']
        omega
  · simp only [if_true]
    exact ne_of_length_ne _ _ hlen

theorem zipPath_ne_infoPath (opts : Opts) (g f : String) :
    zipPath opts g f ≠ infoPath opts g f := by
  have hz : (f ++ ".zip").length = f.length + 4 := by
    rw [length_append']; rfl
  have hi : (f ++ "_feed_info.txt").length = f.length + 14 := by
    rw [length_append']; rfl
  have habs : isAbs (f ++ ".zip") = isAbs (f ++ "_feed_info.txt") := by
    rw [isAbs_append, isAbs_append]
    cases hf : f.data with
    | nil =>
      rw [if_pos rfl, if_pos rfl]
      decide
    | cons c cs =>
      rw [if_neg (List.cons_ne_nil c cs), if_neg (List.cons_ne_nil c cs)]
  unfold zipPath infoPath
  exact pjoin_right_ne _ _ _ habs (by omega)

/-! ### Characterizations of `infoStep`, `mainPart` and `fetchAndCompare` -/

theorem infoStep_fetch_failed (env : Env) (opts : Opts) (now : Int)
    (g f iu : String) (st : St) (h : env.fetchOutcome iu = none) :
    infoStep env opts now g f iu st
      = (false, { st with fetchLog := st.fetchLog ++ [iu], foundError := some true }) := by
  unfold infoStep
  rw [fetchFile_none env iu st h]

theorem infoStep_identical (env : Env) (opts : Opts) (now : Int)
    (g f iu : String) (st : St) (c : Content) (stored : FileData)
    (hf : env.fetchOutcome iu = some c)
    (hs : getFile st.files (infoPath opts g f) = some stored)
    (hh : env.hash c = env.hash stored.content) :
    infoStep env opts now g f iu st
      = (true, { st with fetchLog := st.fetchLog ++ [iu] }) := by
  unfold infoStep
  rw [fetchFile_some env iu st c hf]
  dsimp only
  rw [hs]
  simp [hh]

theorem infoStep_store (env : Env) (opts : Opts) (now : Int)
    (g f iu : String) (st : St) (c : Content)
    (hf : env.fetchOutcome iu = some c)
    (hdiff : ∀ stored, getFile st.files (infoPath opts g f) = some stored →
        ¬ env.hash c = env.hash stored.content) :
    infoStep env opts now g f iu st
      = (false, copyFile (infoPath opts g f) c now
          { st with fetchLog := st.fetchLog ++ [iu] }) := by
  unfold infoStep
  rw [fetchFile_some env iu st c hf]
  dsimp only
  cases hs : getFile st.files (infoPath opts g f) with
  | none => rfl
  | some stored => simp [hdiff stored hs]

theorem mainPart_eq (env : Env) (opts : Opts) (now : Int) (g f url : String)
    (st : St) :
    mainPart env opts now g f url st =
      if urlScheme url = "https" ∨ urlScheme url = "http" then
        match probeResult env url with
        | .error _ => (.error (), { st with headLog := st.headLog ++ [url] })
        | .ok remote =>
          if probeSkips remote (getFile st.files (zipPath opts g f)) then
            (.ok (), { st with headLog := st.headLog ++ [url] })
          else fetchAndCompare env opts now g f url
                 { st with headLog := st.headLog ++ [url] }
      else fetchAndCompare env opts now g f url st := by
  unfold mainPart
  rw [probeStep_eq]
  by_cases hs : urlScheme url = "https" ∨ urlScheme url = "http"
  · rw [if_pos hs, if_pos hs]
    cases probeResult env url with
    | error e => rfl
    | ok remote =>
      dsimp only
      cases hps : probeSkips remote (getFile st.files (zipPath opts g f)) <;> rfl
  · rw [if_neg hs, if_neg hs]

theorem fetchAndCompare_file_raise (env : Env) (opts : Opts) (now : Int)
    (g f url : String) (st : St) (h : urlScheme url = "file")
    (hr : env.localRead (urlPath url) = none) :
    fetchAndCompare env opts now g f url st = (.error (), st) := by
  unfold fetchAndCompare
  rw [if_pos h, hr]

theorem fetchAndCompare_file_read (env : Env) (opts : Opts) (now : Int)
    (g f url : String) (st : St) (c : Content) (h : urlScheme url = "file")
    (hr : env.localRead (urlPath url) = some c) :
    fetchAndCompare env opts now g f url st
      = (.ok (), compareAndInstall env opts now g (zipPath opts g f) c st) := by
  unfold fetchAndCompare
  rw [if_pos h, hr]

theorem fetchAndCompare_fetch_failed (env : Env) (opts : Opts) (now : Int)
    (g f url : String) (st : St) (h : ¬ urlScheme url = "file")
    (hf : env.fetchOutcome url = none) :
    fetchAndCompare env opts now g f url st
      = (.ok (), { st with fetchLog := st.fetchLog ++ [url], foundError := some true }) := by
  unfold fetchAndCompare
  rw [if_neg h, fetchFile_none env url st hf]

theorem fetchAndCompare_fetch_ok (env : Env) (opts : Opts) (now : Int)
    (g f url : String) (st : St) (c : Content) (h : ¬ urlScheme url = "file")
    (hf : env.fetchOutcome url = some c) :
    fetchAndCompare env opts now g f url st
      = (.ok (), compareAndInstall env opts now g (zipPath opts g f) c
          { st with fetchLog := st.fetchLog ++ [url] }) := by
  unfold fetchAndCompare
  rw [if_neg h, fetchFile_some env url st c hf]

theorem mainPart_probe_error (env : Env) (opts : Opts) (now : Int)
    (g f url : String) (st : St)
    (hs : urlScheme url = "https" ∨ urlScheme url = "http")
    (hpr : probeResult env url = .error ()) :
    mainPart env opts now g f url st
      = (.error (), { st with headLog := st.headLog ++ [url] }) := by
  rw [mainPart_eq, if_pos hs, hpr]

theorem mainPart_probe_ok (env : Env) (opts : Opts) (now : Int)
    (g f url : String) (st : St) (remote : Option Int)
    (hs : urlScheme url = "https" ∨ urlScheme url = "http")
    (hpr : probeResult env url = .ok remote) :
    mainPart env opts now g f url st
      = (if probeSkips remote (getFile st.files (zipPath opts g f)) then
           (.ok (), { st with headLog := st.headLog ++ [url] })
         else fetchAndCompare env opts now g f url
           { st with headLog := st.headLog ++ [url] }) := by
  rw [mainPart_eq, if_pos hs, hpr]

theorem mainPart_not_http (env : Env) (opts : Opts) (now : Int)
    (g f url : String) (st : St)
    (hs : ¬(urlScheme url = "https" ∨ urlScheme url = "http")) :
    mainPart env opts now g f url st = fetchAndCompare env opts now g f url st := by
  rw [mainPart_eq, if_neg hs]


/-! ### Frame and monotonicity lemmas -/

theorem compareAndInstall_files_other (env : Env) (opts : Opts) (now : Int)
    (g lp : String) (c : Content) (st : St) (p : String) (hp : p ≠ lp) :
    getFile (compareAndInstall env opts now g lp c st).files p = getFile st.files p := by
  unfold compareAndInstall
  cases hl : getFile st.files lp with
  | none =>
    show getFile (addGraph g (copyFile lp c now st)).files p = getFile st.files p
    rw [addGraph_files, copyFile_files, getFile_setFile_other _ _ _ _ hp]
  | some loc =>
    show getFile (if env.hash loc.content = env.hash c then st
        else addGraph g (copyFile lp c now st)).files p = getFile st.files p
    by_cases hh : env.hash loc.content = env.hash c
    · rw [if_pos hh]
    · rw [if_neg hh, addGraph_files, copyFile_files, getFile_setFile_other _ _ _ _ hp]

theorem compareAndInstall_dirs (env : Env) (opts : Opts) (now : Int)
    (g lp : String) (c : Content) (st : St) :
    (compareAndInstall env opts now g lp c st).dirs = st.dirs := by
  unfold compareAndInstall
  cases hl : getFile st.files lp with
  | none => show (addGraph g (copyFile lp c now st)).dirs = st.dirs; simp
  | some loc =>
    show (if env.hash loc.content = env.hash c then st
        else addGraph g (copyFile lp c now st)).dirs = st.dirs
    by_cases hh : env.hash loc.content = env.hash c <;> simp [hh]

theorem compareAndInstall_foundError (env : Env) (opts : Opts) (now : Int)
    (g lp : String) (c : Content) (st : St) :
    (compareAndInstall env opts now g lp c st).foundError = st.foundError := by
  unfold compareAndInstall
  cases hl : getFile st.files lp with
  | none => show (addGraph g (copyFile lp c now st)).foundError = st.foundError; simp
  | some loc =>
    show (if env.hash loc.content = env.hash c then st
        else addGraph g (copyFile lp c now st)).foundError = st.foundError
    by_cases hh : env.hash loc.content = env.hash c <;> simp [hh]

theorem compareAndInstall_fetchLog (env : Env) (opts : Opts) (now : Int)
    (g lp : String) (c : Content) (st : St) :
    (compareAndInstall env opts now g lp c st).fetchLog = st.fetchLog := by
  unfold compareAndInstall
  cases hl : getFile st.files lp with
  | none => show (addGraph g (copyFile lp c now st)).fetchLog = st.fetchLog; simp
  | some loc =>
    show (if env.hash loc.content = env.hash c then st
        else addGraph g (copyFile lp c now st)).fetchLog = st.fetchLog
    by_cases hh : env.hash loc.content = env.hash c <;> simp [hh]

theorem compareAndInstall_headLog (env : Env) (opts : Opts) (now : Int)
    (g lp : String) (c : Content) (st : St) :
    (compareAndInstall env opts now g lp c st).headLog = st.headLog := by
  unfold compareAndInstall
  cases hl : getFile st.files lp with
  | none => show (addGraph g (copyFile lp c now st)).headLog = st.headLog; simp
  | some loc =>
    show (if env.hash loc.content = env.hash c then st
        else addGraph g (copyFile lp c now st)).headLog = st.headLog
    by_cases hh : env.hash loc.content = env.hash c <;> simp [hh]

theorem compareAndInstall_updated_mem (env : Env) (opts : Opts) (now : Int)
    (g lp : String) (c : Content) (st : St) (g' : String)
    (h : g' ∈ st.updated) :
    g' ∈ (compareAndInstall env opts now g lp c st).updated := by
  unfold compareAndInstall
  cases hl : getFile st.files lp with
  | none =>
    show g' ∈ (addGraph g (copyFile lp c now st)).updated
    exact addGraph_mem_mono _ _ _ (by simpa using h)
  | some loc =>
    show g' ∈ (if env.hash loc.content = env.hash c then st
        else addGraph g (copyFile lp c now st)).updated
    by_cases hh : env.hash loc.content = env.hash c
    · rw [if_pos hh]; exact h
    · rw [if_neg hh]; exact addGraph_mem_mono _ _ _ (by simpa using h)

/-! ### Unfolding lemmas for `updateFeed` and `updateRows` -/

theorem updateFeed_not_pass (env : Env) (opts : Opts) (now : Int)
    (row : List String) (st : St)
    (h : passFilter opts (row.getD 0 "") = false) :
    updateFeed env opts now row st = (.ok (), st) := by
  unfold updateFeed
  simp at h
  simp [h]

theorem updateFeed3_eq (env : Env) (opts : Opts) (now : Int) (g f url : String)
    (st : St) (hp : passFilter opts g = true) :
    updateFeed env opts now [g, f, url] st
      = mainPart env opts now g f url
          (if opts.force then addGraph g (createGraphDir opts g st)
           else createGraphDir opts g st) := by
  unfold updateFeed
  simp [hp]

theorem updateFeed4_eq (env : Env) (opts : Opts) (now : Int)
    (g f url iu : String) (st : St) (hp : passFilter opts g = true) :
    updateFeed env opts now [g, f, url, iu] st
      = (match infoStep env opts now g f iu
            (if opts.force then addGraph g (createGraphDir opts g st)
             else createGraphDir opts g st) with
         | (true, st') => (.ok (), st')
         | (false, st') => mainPart env opts now g f url st') := by
  unfold updateFeed
  simp [hp]

theorem updateRows_nil (env : Env) (opts : Opts) (now : Int) (st : St) :
    updateRows env opts now [] st = (.ok (), st) := rfl

theorem updateRows_cons_empty (env : Env) (opts : Opts) (now : Int)
    (rest : List (List String)) (st : St) :
    updateRows env opts now ([] :: rest) st = updateRows env opts now rest st := rfl

theorem updateRows_cons_comment (env : Env) (opts : Opts) (now : Int)
    (row : List String) (rest : List (List String)) (st : St)
    (hne : row.length ≠ 0) (hc : startsHash (row.getD 0 "") = true) :
    updateRows env opts now (row :: rest) st = updateRows env opts now rest st := by
  conv_lhs => rw [updateRows]
  rw [if_neg hne, if_pos hc]

theorem updateRows_cons_malformed (env : Env) (opts : Opts) (now : Int)
    (row : List String) (rest : List (List String)) (st : St)
    (hne : row.length ≠ 0) (hc : startsHash (row.getD 0 "") = false)
    (hlen : row.length < 3 ∨ row.length > 4) :
    updateRows env opts now (row :: rest) st
      = updateRows env opts now rest { st with foundError := some true } := by
  conv_lhs => rw [updateRows]
  rw [if_neg hne, hc]
  simp [hlen]

theorem updateRows_cons_feed (env : Env) (opts : Opts) (now : Int)
    (row : List String) (rest : List (List String)) (st : St)
    (hne : row.length ≠ 0) (hc : startsHash (row.getD 0 "") = false)
    (hlen : ¬(row.length < 3 ∨ row.length > 4)) :
    updateRows env opts now (row :: rest) st
      = (match updateFeed env opts now row st with
         | (.ok _, st') => updateRows env opts now rest st'
         | (.error e, st') => (.error e, st')) := by
  conv_lhs => rw [updateRows]
  rw [if_neg hne, hc]
  simp [hlen]

theorem fetchAndCompare_files_other (env : Env) (opts : Opts) (now : Int)
    (g f url : String) (st : St) (p : String) (hp : p ≠ zipPath opts g f) :
    getFile (fetchAndCompare env opts now g f url st).2.files p
      = getFile st.files p := by
  unfold fetchAndCompare
  split
  · cases hr : env.localRead (urlPath url) with
    | none => rfl
    | some c =>
      show getFile (compareAndInstall env opts now g (zipPath opts g f) c st).files p
        = getFile st.files p
      exact compareAndInstall_files_other env opts now g _ c st p hp
  · cases hf : env.fetchOutcome url with
    | none => rw [fetchFile_none env url st hf]
    | some c =>
      rw [fetchFile_some env url st c hf]
      show getFile (compareAndInstall env opts now g (zipPath opts g f) c
          { st with fetchLog := st.fetchLog ++ [url] }).files p = getFile st.files p
      exact compareAndInstall_files_other env opts now g _ c _ p hp

theorem mainPart_files_other (env : Env) (opts : Opts) (now : Int)
    (g f url : String) (st : St) (p : String) (hp : p ≠ zipPath opts g f) :
    getFile (mainPart env opts now g f url st).2.files p = getFile st.files p := by
  rw [mainPart_eq]
  split
  · cases probeResult env url with
    | error e => rfl
    | ok remote =>
      dsimp only
      split
      · rfl
      · exact fetchAndCompare_files_other env opts now g f url _ p hp
  · exact fetchAndCompare_files_other env opts now g f url st p hp

theorem mainPart_fetch_failed_files (env : Env) (opts : Opts) (now : Int)
    (g f url : String) (st : St)
    (hscheme : ¬ urlScheme url = "file") (hfetch : env.fetchOutcome url = none) :
    (mainPart env opts now g f url st).2.files = st.files := by
  rw [mainPart_eq]
  split
  · cases probeResult env url with
    | error e => rfl
    | ok remote =>
      dsimp only
      split
      · rfl
      · rw [fetchAndCompare_fetch_failed env opts now g f url _ hscheme hfetch]
  · rw [fetchAndCompare_fetch_failed env opts now g f url st hscheme hfetch]

theorem compareAndInstall_writes_mem (env : Env) (opts : Opts) (now : Int)
    (g lp : String) (c : Content) (st : St) (x : String) (h : x ∈ st.writes) :
    x ∈ (compareAndInstall env opts now g lp c st).writes := by
  unfold compareAndInstall
  cases hl : getFile st.files lp with
  | none =>
    show x ∈ (addGraph g (copyFile lp c now st)).writes
    rw [addGraph_writes, copyFile_writes]
    exact List.mem_append.mpr (Or.inl h)
  | some loc =>
    show x ∈ (if env.hash loc.content = env.hash c then st
        else addGraph g (copyFile lp c now st)).writes
    by_cases hh : env.hash loc.content = env.hash c
    · rw [if_pos hh]; exact h
    · rw [if_neg hh, addGraph_writes, copyFile_writes]
      exact List.mem_append.mpr (Or.inl h)

theorem fetchAndCompare_writes_mem (env : Env) (opts : Opts) (now : Int)
    (g f url : String) (st : St) (x : String) (h : x ∈ st.writes) :
    x ∈ (fetchAndCompare env opts now g f url st).2.writes := by
  unfold fetchAndCompare
  split
  · cases hr : env.localRead (urlPath url) with
    | none => exact h
    | some c =>
      show x ∈ (compareAndInstall env opts now g (zipPath opts g f) c st).writes
      exact compareAndInstall_writes_mem env opts now g _ c st x h
  · cases hf : env.fetchOutcome url with
    | none => rw [fetchFile_none env url st hf]; exact h
    | some c =>
      rw [fetchFile_some env url st c hf]
      show x ∈ (compareAndInstall env opts now g (zipPath opts g f) c
          { st with fetchLog := st.fetchLog ++ [url] }).writes
      exact compareAndInstall_writes_mem env opts now g _ c _ x h

theorem mainPart_writes_mem (env : Env) (opts : Opts) (now : Int)
    (g f url : String) (st : St) (x : String) (h : x ∈ st.writes) :
    x ∈ (mainPart env opts now g f url st).2.writes := by
  rw [mainPart_eq]
  split
  · cases probeResult env url with
    | error e => exact h
    | ok remote =>
      dsimp only
      split
      · exact h
      · exact fetchAndCompare_writes_mem env opts now g f url _ x h
  · exact fetchAndCompare_writes_mem env opts now g f url st x h

/-! ### Claim C1 -/

/-- Claim C1 (code bug): the claim states the process exit status is the
success value iff no malformed record, fetch/probe failure, or rebuild
failure occurred.  The code disagrees on an error-free run: `main` evaluates
`updater.found_error` without calling it, and a bound method object is always
truthy, so even a run with no errors at all exits with 255; moreover
`_found_error` is never initialised in `__init__`, so calling
`found_error()` on an error-free run would raise `AttributeError`. -/
theorem c1_error_free_run_exits_255 :
    mainExit trivEnv benignOpts 0 [] [] [] = .ok 255 ∧
    (updateFeeds trivEnv benignOpts 0 [] (initSt [] [])).2.foundError = none ∧
    foundErrorCall (updateFeeds trivEnv benignOpts 0 [] (initSt [] [])).2
      = .error () := by
  decide

/-! ### Claim C2 -/

/-- Claim C2 counterexample: on a transport failure during the HEAD exchange
`_get_last_modified_for_url` does not return `None` — the exception
propagates out of the prober (nothing catches it), contradicting the claim
that a transport failure yields `None` without raising. -/
theorem c2_transport_failure_raises :
    trivEnv.head "http://h/p" = .exn ∧
    (getLastModifiedForUrl trivEnv "http://h/p" (initSt [] [])).1 = .error () := by
  decide

/-- Claim C2 (amended): for every http/https URL, the prober returns the
parsed timezone-naive timestamp on HTTP 200 with a parsable last-modified
header, and returns `None` on any other status or on a missing header; but a
transport failure during the HEAD exchange, or an unparsable header on a 200
response, raises an uncaught exception instead of returning `None`. -/
theorem c2_probe_behaviour (env : Env) (url : String) (st : St) :
    (∀ t, env.head url = .status 200 (some (some t)) →
        (getLastModifiedForUrl env url st).1 = .ok (some t)) ∧
    (env.head url = .status 200 none →
        (getLastModifiedForUrl env url st).1 = .ok none) ∧
    (∀ code mod, env.head url = .status code mod → code ≠ 200 →
        (getLastModifiedForUrl env url st).1 = .ok none) ∧
    (env.head url = .exn →
        (getLastModifiedForUrl env url st).1 = .error ()) ∧
    (env.head url = .status 200 (some none) →
        (getLastModifiedForUrl env url st).1 = .error ()) := by
  refine ⟨?_, ?_, ?_, ?_, ?_⟩
  · intro t h; simp [getLastModifiedForUrl, probeResult, h]
  · intro h; simp [getLastModifiedForUrl, probeResult, h]
  · intro code mod h hcode; simp [getLastModifiedForUrl, probeResult, h, hcode]
  · intro h; simp [getLastModifiedForUrl, probeResult, h]
  · intro h; simp [getLastModifiedForUrl, probeResult, h]

theorem c2_probe_behaviour_witness :
    (getLastModifiedForUrl probe200Env "http://h/p" (initSt [] [])).1
      = .ok (some 3) :=
  (c2_probe_behaviour probe200Env "http://h/p" (initSt [] [])).1 3 rfl

/-! ### Claim C6 -/

/-- Claim C6: a feed record whose field count is outside {3,4}, which is
neither a blank line nor a comment, is skipped with the run error flag set —
the only state change is the error flag (so no directory creation, no fetch,
no write) — and processing continues with the remaining records. -/
theorem c6_malformed_record (env : Env) (opts : Opts) (now : Int)
    (row : List String) (rest : List (List String)) (st : St)
    (hne : row.length ≠ 0) (hc : startsHash (row.getD 0 "") = false)
    (hlen : row.length < 3 ∨ row.length > 4) :
    updateRows env opts now (row :: rest) st
      = updateRows env opts now rest { st with foundError := some true } ∧
    ({ st with foundError := some true } : St).dirs = st.dirs ∧
    ({ st with foundError := some true } : St).fetchLog = st.fetchLog ∧
    ({ st with foundError := some true } : St).writes = st.writes ∧
    ({ st with foundError := some true } : St).files = st.files :=
  ⟨updateRows_cons_malformed env opts now row rest st hne hc hlen,
   rfl, rfl, rfl, rfl⟩

theorem c6_malformed_record_witness :
    updateRows trivEnv benignOpts 0 [["a", "b"], ["#x"], []] (initSt [] [])
      = updateRows trivEnv benignOpts 0 [["#x"], []]
          { initSt [] [] with foundError := some true } :=
  (c6_malformed_record trivEnv benignOpts 0 ["a", "b"] [["#x"], []]
    (initSt [] []) (by decide) (by decide) (by decide)).1

/-! ### Claim C5 -/

/-- Claim C5: for a 4-field row whose feed-info URL fetches successfully,
with a stored snapshot of identical hash, the entire feed is short-circuited
(absent force-rebuild): the final state differs from the initial one only by
possible graph-directory creation and the feed-info fetch-log entry — in
particular no HEAD probe, no main-feed fetch, no file write and no graph
mark happen. -/
theorem c5_feed_info_short_circuit (env : Env) (opts : Opts) (now : Int)
    (g f url iu : String) (st : St) (c : Content) (stored : FileData)
    (hp : passFilter opts g = true)
    (hforce : opts.force = false)
    (hfetch : env.fetchOutcome iu = some c)
    (hstored : getFile st.files (infoPath opts g f) = some stored)
    (hhash : env.hash c = env.hash stored.content) :
    updateFeed env opts now [g, f, url, iu] st
      = (.ok (), { createGraphDir opts g st with
            fetchLog := st.fetchLog ++ [iu] }) := by
  rw [updateFeed4_eq env opts now g f url iu st hp, hforce]
  simp only [Bool.false_eq_true, if_false]
  rw [infoStep_identical env opts now g f iu (createGraphDir opts g st) c stored
    hfetch (by rw [createGraphDir_files]; exact hstored) hhash]
  rw [createGraphDir_fetchLog]

theorem c5_feed_info_short_circuit_witness :
    updateFeed c5Env benignOpts 7 ["A", "f", "http://h/z", "iu"] c5St
      = (.ok (), { createGraphDir benignOpts "A" c5St with
            fetchLog := c5St.fetchLog ++ ["iu"] }) :=
  c5_feed_info_short_circuit c5Env benignOpts 7 "A" "f" "http://h/z" "iu" c5St
    [3] ⟨[3], 0⟩ (by decide) rfl (by decide) (by decide) rfl

/-! ### Claim C10 -/

/-- Claim C10: for a 4-field row whose feed-info fetch succeeds with content
differing from the stored snapshot (or with no snapshot present), the new
snapshot is installed at the feed-info path before the main feed is probed or
fetched: after the row is processed the snapshot holds the fetched content
and was written, and when the main-feed fetch fails the feed payload is
unchanged — only the snapshot reflects the new remote state. -/
theorem c10_snapshot_stored_before_main (env : Env) (opts : Opts) (now : Int)
    (g f url iu : String) (st : St) (c : Content)
    (hp : passFilter opts g = true)
    (hfetch : env.fetchOutcome iu = some c)
    (hdiff : ∀ stored, getFile st.files (infoPath opts g f) = some stored →
        ¬ env.hash c = env.hash stored.content) :
    getFile (updateFeed env opts now [g, f, url, iu] st).2.files (infoPath opts g f)
      = some ⟨c, now⟩ ∧
    infoPath opts g f ∈ (updateFeed env opts now [g, f, url, iu] st).2.writes ∧
    (¬ urlScheme url = "file" → env.fetchOutcome url = none →
      getFile (updateFeed env opts now [g, f, url, iu] st).2.files (zipPath opts g f)
        = getFile st.files (zipPath opts g f)) := by
  rw [updateFeed4_eq env opts now g f url iu st hp]
  set s1 := (if opts.force = true then addGraph g (createGraphDir opts g st)
      else createGraphDir opts g st) with hs1
  have hfiles1 : s1.files = st.files := by
    rw [hs1]; by_cases hf' : opts.force <;> simp [hf']
  rw [infoStep_store env opts now g f iu s1 c hfetch
    (fun stored h => hdiff stored (by rw [hfiles1] at h; exact h))]
  dsimp only
  have h2ip : getFile (copyFile (infoPath opts g f) c now
      { s1 with fetchLog := s1.fetchLog ++ [iu] }).files (infoPath opts g f)
      = some ⟨c, now⟩ := by
    rw [copyFile_files]
    exact getFile_setFile_same _ _ _
  have hzp_ne : zipPath opts g f ≠ infoPath opts g f := zipPath_ne_infoPath opts g f
  have hip_ne : infoPath opts g f ≠ zipPath opts g f := fun h => hzp_ne h.symm
  refine ⟨?_, ?_, ?_⟩
  · rw [mainPart_files_other env opts now g f url _ _ hip_ne]
    exact h2ip
  · apply mainPart_writes_mem
    rw [copyFile_writes]
    exact List.mem_append.mpr (Or.inr (by simp))
  · intro hsch hmf
    rw [mainPart_fetch_failed_files env opts now g f url _ hsch hmf]
    rw [copyFile_files, getFile_setFile_other _ _ _ _ hzp_ne]
    show getFile s1.files (zipPath opts g f) = getFile st.files (zipPath opts g f)
    rw [hfiles1]

theorem c10_snapshot_stored_before_main_witness :
    getFile (updateFeed c10Env benignOpts 7 ["A", "f", "ftp://u", "iu"]
        (initSt [] [])).2.files (infoPath benignOpts "A" "f") = some ⟨[4], 7⟩ :=
  (c10_snapshot_stored_before_main c10Env benignOpts 7 "A" "f" "ftp://u" "iu"
    (initSt [] []) [4] (by decide) (by decide)
    (fun stored h => by simp [initSt, getFile] at h)).1

/-! ### Claim C4 -/

theorem fetchAndCompare_nochange (env : Env) (opts : Opts) (now : Int)
    (g f url : String) (st : St) (loc : FileData)
    (hl : getFile st.files (zipPath opts g f) = some loc)
    (hcontent : ∀ c, mainContent env url = some c →
        env.hash c = env.hash loc.content) :
    (fetchAndCompare env opts now g f url st).2.files = st.files ∧
    (fetchAndCompare env opts now g f url st).2.updated = st.updated ∧
    (fetchAndCompare env opts now g f url st).2.writes = st.writes := by
  unfold fetchAndCompare
  by_cases hfile : urlScheme url = "file"
  · rw [if_pos hfile]
    cases hr : env.localRead (urlPath url) with
    | none => exact ⟨rfl, rfl, rfl⟩
    | some c =>
      have hcc : env.hash loc.content = env.hash c :=
        (hcontent c (by rw [mainContent, if_pos hfile]; exact hr)).symm
      have heq := compareAndInstall_identical env opts now g (zipPath opts g f) c st loc hl hcc
      refine ⟨?_, ?_, ?_⟩
      · show (compareAndInstall env opts now g (zipPath opts g f) c st).files = st.files
        rw [heq]
      · show (compareAndInstall env opts now g (zipPath opts g f) c st).updated = st.updated
        rw [heq]
      · show (compareAndInstall env opts now g (zipPath opts g f) c st).writes = st.writes
        rw [heq]
  · rw [if_neg hfile]
    cases hf : env.fetchOutcome url with
    | none => rw [fetchFile_none env url st hf]; exact ⟨rfl, rfl, rfl⟩
    | some c =>
      rw [fetchFile_some env url st c hf]
      have hcc : env.hash loc.content = env.hash c :=
        (hcontent c (by rw [mainContent, if_neg hfile]; exact hf)).symm
      have hl' : getFile ({ st with fetchLog := st.fetchLog ++ [url] } : St).files
          (zipPath opts g f) = some loc := hl
      have heq := compareAndInstall_identical env opts now g (zipPath opts g f) c
        ({ st with fetchLog := st.fetchLog ++ [url] } : St) loc hl' hcc
      refine ⟨?_, ?_, ?_⟩
      · show (compareAndInstall env opts now g (zipPath opts g f) c
            ({ st with fetchLog := st.fetchLog ++ [url] } : St)).files = st.files
        rw [heq]
      · show (compareAndInstall env opts now g (zipPath opts g f) c
            ({ st with fetchLog := st.fetchLog ++ [url] } : St)).updated = st.updated
        rw [heq]
      · show (compareAndInstall env opts now g (zipPath opts g f) c
            ({ st with fetchLog := st.fetchLog ++ [url] } : St)).writes = st.writes
        rw [heq]

theorem mainPart_nochange (env : Env) (opts : Opts) (now : Int)
    (g f url : String) (st : St) (loc : FileData)
    (hloc : getFile st.files (zipPath opts g f) = some loc)
    (hcontent : ∀ c, mainContent env url = some c →
        env.hash c = env.hash loc.content) :
    (mainPart env opts now g f url st).2.files = st.files ∧
    (mainPart env opts now g f url st).2.updated = st.updated ∧
    (mainPart env opts now g f url st).2.writes = st.writes := by
  rw [mainPart_eq]
  split
  · cases probeResult env url with
    | error e => exact ⟨rfl, rfl, rfl⟩
    | ok remote =>
      dsimp only
      split
      · exact ⟨rfl, rfl, rfl⟩
      · have hl' : getFile ({ st with headLog := st.headLog ++ [url] } : St).files
            (zipPath opts g f) = some loc := hloc
        exact fetchAndCompare_nochange env opts now g f url _ loc hl' hcontent
  · exact fetchAndCompare_nochange env opts now g f url st loc hloc hcontent

/-- Claim C4 counterexample: the claim as stated is violated when the
force-rebuild flag is set — the graph is added to the updated set by the row
even though the hash of the newly fetched content equals the hash of the
stored local content. -/
theorem c4_force_marks_despite_identical :
    forceOpts.force = true ∧
    getFile c4St.files (zipPath forceOpts "A" "f") = some ⟨[7], 0⟩ ∧
    c4Env.fetchOutcome "ftp://u" = some [7] ∧
    c4Env.hash [7] = c4Env.hash [7] ∧
    "A" ∈ (updateFeed c4Env forceOpts 5 ["A", "f", "ftp://u"] c4St).2.updated := by
  decide

/-- Claim C4 (amended): absent force-rebuild, for every feed row with an
existing local copy, if the hash of the newly obtained content equals the
hash of the stored content then the graph is not added to the updated set by
that row, the local feed file is not rewritten (it still holds the same
entry), and the only write the row can make is its feed-info snapshot — this
holds regardless of the probed remote timestamp. -/
theorem c4_identical_hash_no_update (env : Env) (opts : Opts) (now : Int)
    (row : List String) (g f url : String) (st : St) (loc : FileData)
    (hrow : row = [g, f, url] ∨ ∃ iu, row = [g, f, url, iu])
    (hforce : opts.force = false)
    (hloc : getFile st.files (zipPath opts g f) = some loc)
    (hcontent : ∀ c, mainContent env url = some c →
        env.hash c = env.hash loc.content) :
    (updateFeed env opts now row st).2.updated = st.updated ∧
    getFile (updateFeed env opts now row st).2.files (zipPath opts g f)
      = some loc ∧
    (∀ p, p ∈ (updateFeed env opts now row st).2.writes →
      p ∈ st.writes ∨ p = infoPath opts g f) := by
  have hzp_ne : zipPath opts g f ≠ infoPath opts g f := zipPath_ne_infoPath opts g f
  by_cases hp : passFilter opts g = true
  case neg =>
    have hrow0 : row.getD 0 "" = g := by
      rcases hrow with h | ⟨iu, h⟩ <;> subst h <;> rfl
    rw [updateFeed_not_pass env opts now row st (by rw [hrow0]; simpa using hp)]
    exact ⟨rfl, hloc, fun p hpw => Or.inl hpw⟩
  case pos =>
    rcases hrow with hrow | ⟨iu, hrow⟩ <;> subst hrow
    · rw [updateFeed3_eq env opts now g f url st hp, hforce]
      simp only [Bool.false_eq_true, if_false]
      have hloc1 : getFile (createGraphDir opts g st).files (zipPath opts g f)
          = some loc := by rw [createGraphDir_files]; exact hloc
      obtain ⟨h1, h2, h3⟩ := mainPart_nochange env opts now g f url
        (createGraphDir opts g st) loc hloc1 hcontent
      refine ⟨?_, ?_, ?_⟩
      · rw [h2, createGraphDir_updated]
      · rw [h1, createGraphDir_files]; exact hloc
      · intro p hpw
        rw [h3, createGraphDir_writes] at hpw
        exact Or.inl hpw
    · rw [updateFeed4_eq env opts now g f url iu st hp, hforce]
      simp only [Bool.false_eq_true, if_false]
      cases hif : env.fetchOutcome iu with
      | none =>
        rw [infoStep_fetch_failed env opts now g f iu _ hif]
        dsimp only
        set s1 : St := { createGraphDir opts g st with
          fetchLog := (createGraphDir opts g st).fetchLog ++ [iu],
          foundError := some true } with hs1
        have hloc1 : getFile s1.files (zipPath opts g f) = some loc := by
          rw [hs1]
          show getFile (createGraphDir opts g st).files (zipPath opts g f) = some loc
          rw [createGraphDir_files]; exact hloc
        obtain ⟨h1, h2, h3⟩ := mainPart_nochange env opts now g f url s1 loc hloc1 hcontent
        refine ⟨?_, ?_, ?_⟩
        · rw [h2, hs1]
          show (createGraphDir opts g st).updated = st.updated
          rw [createGraphDir_updated]
        · rw [h1]; exact hloc1
        · intro p hpw
          rw [h3, hs1] at hpw
          exact Or.inl (by rwa [createGraphDir_writes] at hpw)
      | some c' =>
        cases hst : getFile (createGraphDir opts g st).files (infoPath opts g f) with
        | some stored =>
          by_cases hh : env.hash c' = env.hash stored.content
          · rw [infoStep_identical env opts now g f iu _ c' stored hif hst hh]
            dsimp only
            refine ⟨?_, ?_, ?_⟩
            · show (createGraphDir opts g st).updated = st.updated
              rw [createGraphDir_updated]
            · show getFile (createGraphDir opts g st).files (zipPath opts g f) = some loc
              rw [createGraphDir_files]; exact hloc
            · intro p hpw
              exact Or.inl (by rwa [createGraphDir_writes] at hpw)
          · rw [infoStep_store env opts now g f iu _ c' hif
              (fun stored' h' => by rw [hst] at h'; cases h'; exact hh)]
            dsimp only
            set s2 : St := copyFile (infoPath opts g f) c' now
              { createGraphDir opts g st with
                fetchLog := (createGraphDir opts g st).fetchLog ++ [iu] } with hs2
            have hloc2 : getFile s2.files (zipPath opts g f) = some loc := by
              rw [hs2, copyFile_files, getFile_setFile_other _ _ _ _ hzp_ne]
              show getFile (createGraphDir opts g st).files (zipPath opts g f) = some loc
              rw [createGraphDir_files]; exact hloc
            obtain ⟨h1, h2, h3⟩ := mainPart_nochange env opts now g f url s2 loc hloc2 hcontent
            refine ⟨?_, ?_, ?_⟩
            · rw [h2, hs2, copyFile_updated]
              show (createGraphDir opts g st).updated = st.updated
              rw [createGraphDir_updated]
            · rw [h1]; exact hloc2
            · intro p hpw
              rw [h3, hs2, copyFile_writes] at hpw
              rcases List.mem_append.mp hpw with hpw | hpw
              · exact Or.inl (by rwa [createGraphDir_writes] at hpw)
              · exact Or.inr (by simpa using hpw)
        | none =>
          rw [infoStep_store env opts now g f iu _ c' hif
            (fun stored' h' => by rw [hst] at h'; cases h')]
          dsimp only
          set s2 : St := copyFile (infoPath opts g f) c' now
            { createGraphDir opts g st with
              fetchLog := (createGraphDir opts g st).fetchLog ++ [iu] } with hs2
          have hloc2 : getFile s2.files (zipPath opts g f) = some loc := by
            rw [hs2, copyFile_files, getFile_setFile_other _ _ _ _ hzp_ne]
            show getFile (createGraphDir opts g st).files (zipPath opts g f) = some loc
            rw [createGraphDir_files]; exact hloc
          obtain ⟨h1, h2, h3⟩ := mainPart_nochange env opts now g f url s2 loc hloc2 hcontent
          refine ⟨?_, ?_, ?_⟩
          · rw [h2, hs2, copyFile_updated]
            show (createGraphDir opts g st).updated = st.updated
            rw [createGraphDir_updated]
          · rw [h1]; exact hloc2
          · intro p hpw
            rw [h3, hs2, copyFile_writes] at hpw
            rcases List.mem_append.mp hpw with hpw | hpw
            · exact Or.inl (by rwa [createGraphDir_writes] at hpw)
            · exact Or.inr (by simpa using hpw)

theorem c4_identical_hash_no_update_witness :
    (updateFeed c4Env benignOpts 5 ["A", "f", "ftp://u"] c4St).2.updated
      = c4St.updated :=
  (c4_identical_hash_no_update c4Env benignOpts 5 ["A", "f", "ftp://u"]
    "A" "f" "ftp://u" c4St ⟨[7], 0⟩ (Or.inl rfl) rfl (by decide)
    (fun c hc => by
      simp only [mainContent] at hc
      rw [if_neg (by decide)] at hc
      have : c = [7] := by
        have h7 : c4Env.fetchOutcome "ftp://u" = some [7] := by decide
        rw [h7] at hc; cases hc; rfl
      rw [this])).1

/-! ### Claim C3 -/

/-- Claim C3 counterexample: for a `file:`-scheme feed whose local path
cannot be opened, the exception from `open(u.path, 'rb')` is not caught — the
run aborts, the error flag is NOT set, and the subsequent feed is never
processed (no fetch is ever attempted), contradicting the claim that such a
failure flags the error and lets every subsequent feed still be processed. -/
theorem c3_file_open_failure_aborts :
    trivEnv.localRead "/nope" = none ∧
    (updateRows trivEnv benignOpts 5
        [["A", "f", "file:///nope"], ["B", "g", "ftp://u"]] (initSt [] [])).1
      = .error () ∧
    (updateRows trivEnv benignOpts 5
        [["A", "f", "file:///nope"], ["B", "g", "ftp://u"]]
        (initSt [] [])).2.foundError = none ∧
    (updateRows trivEnv benignOpts 5
        [["A", "f", "file:///nope"], ["B", "g", "ftp://u"]]
        (initSt [] [])).2.fetchLog = [] := by
  decide

/-- Claim C3 (amended): for every feed row — 3-field or 4-field — whose main
content fetch goes through `_fetch_file` and fails (any non-`file:` scheme:
network error, transport exception, or non-200 status; for a 4-field row this
is when the feed-info check does not short-circuit the row), the run error
flag becomes true, every cache file other than the row's own feed-info
snapshot is left unchanged (the snapshot may have been overwritten by the
preceding feed-info step, which is the only write the row can make), and
processing continues with the subsequent rows — the failure does not cross
the feed boundary.  (For `file:`-scheme feeds whose local path cannot be
opened, the exception instead propagates and aborts the run.)  The probe — if
the scheme is http/https — is assumed to return without raising and not to
skip, so that the fetch is actually attempted. -/
theorem c3_fetch_failure_isolated (env : Env) (opts : Opts) (now : Int)
    (row : List String) (g f url : String) (rest : List (List String)) (st : St)
    (hrow : row = [g, f, url] ∨ ∃ iu, row = [g, f, url, iu])
    (hcomment : startsHash g = false)
    (hp : passFilter opts g = true)
    (hfile : ¬ urlScheme url = "file")
    (hfetch : env.fetchOutcome url = none)
    (hnoskip : ∀ iu, row = [g, f, url, iu] → ∀ c stored,
        env.fetchOutcome iu = some c →
        getFile st.files (infoPath opts g f) = some stored →
        ¬ env.hash c = env.hash stored.content)
    (hprobe : urlScheme url = "https" ∨ urlScheme url = "http" →
        ∃ remote, probeResult env url = .ok remote ∧
          probeSkips remote (getFile st.files (zipPath opts g f)) = false) :
    (updateFeed env opts now row st).1 = .ok () ∧
    (∀ p, p ≠ infoPath opts g f →
        getFile (updateFeed env opts now row st).2.files p = getFile st.files p) ∧
    (∀ p, p ∈ (updateFeed env opts now row st).2.writes →
        p ∈ st.writes ∨ p = infoPath opts g f) ∧
    (updateFeed env opts now row st).2.foundError = some true ∧
    updateRows env opts now (row :: rest) st
      = updateRows env opts now rest (updateFeed env opts now row st).2 := by
  set s1 := (if opts.force = true then addGraph g (createGraphDir opts g st)
      else createGraphDir opts g st) with hs1
  have h1files : s1.files = st.files := by
    rw [hs1]; by_cases hf' : opts.force <;> simp [hf']
  have h1writes : s1.writes = st.writes := by
    rw [hs1]; by_cases hf' : opts.force <;> simp [hf']
  have hMP : ∀ s : St,
      getFile s.files (zipPath opts g f) = getFile st.files (zipPath opts g f) →
      (mainPart env opts now g f url s).1 = .ok () ∧
      (mainPart env opts now g f url s).2.files = s.files ∧
      (mainPart env opts now g f url s).2.writes = s.writes ∧
      (mainPart env opts now g f url s).2.foundError = some true := by
    intro s hszp
    by_cases hs : urlScheme url = "https" ∨ urlScheme url = "http"
    · obtain ⟨remote, hr, hskip⟩ := hprobe hs
      rw [mainPart_probe_ok env opts now g f url s remote hs hr]
      have hsk : probeSkips remote (getFile s.files (zipPath opts g f)) = false := by
        rw [hszp]; exact hskip
      rw [hsk]
      simp only [Bool.false_eq_true, if_false]
      rw [fetchAndCompare_fetch_failed env opts now g f url _ hfile hfetch]
      exact ⟨rfl, rfl, rfl, rfl⟩
    · rw [mainPart_not_http env opts now g f url s hs]
      rw [fetchAndCompare_fetch_failed env opts now g f url s hfile hfetch]
      exact ⟨rfl, rfl, rfl, rfl⟩
  rcases hrow with hrow | ⟨iu, hrow⟩ <;> subst hrow
  · have hfeed : updateFeed env opts now [g, f, url] st
        = mainPart env opts now g f url s1 := by
      rw [updateFeed3_eq env opts now g f url st hp, hs1]
    obtain ⟨m1, m2, m3, m4⟩ := hMP s1 (by rw [h1files])
    have h1 : (updateFeed env opts now [g, f, url] st).1 = .ok () := by
      rw [hfeed]; exact m1
    refine ⟨h1, ?_, ?_, ?_, ?_⟩
    · intro p hpne
      rw [hfeed, m2, h1files]
    · intro p hpw
      rw [hfeed, m3, h1writes] at hpw
      exact Or.inl hpw
    · rw [hfeed]; exact m4
    · rw [updateRows_cons_feed env opts now [g, f, url] rest st (by simp)
        hcomment (by simp)]
      have hpair : updateFeed env opts now [g, f, url] st
          = (.ok (), (updateFeed env opts now [g, f, url] st).2) := by
        rw [← h1]
      rw [hpair]
  · cases hif : env.fetchOutcome iu with
    | none =>
      have hfeed : updateFeed env opts now [g, f, url, iu] st
          = mainPart env opts now g f url
              { s1 with fetchLog := s1.fetchLog ++ [iu], foundError := some true } := by
        rw [updateFeed4_eq env opts now g f url iu st hp, ← hs1,
          infoStep_fetch_failed env opts now g f iu s1 hif]
      obtain ⟨m1, m2, m3, m4⟩ := hMP
        { s1 with fetchLog := s1.fetchLog ++ [iu], foundError := some true }
        (by show getFile s1.files (zipPath opts g f) = _; rw [h1files])
      have h1 : (updateFeed env opts now [g, f, url, iu] st).1 = .ok () := by
        rw [hfeed]; exact m1
      refine ⟨h1, ?_, ?_, ?_, ?_⟩
      · intro p hpne
        rw [hfeed, m2]
        show getFile s1.files p = getFile st.files p
        rw [h1files]
      · intro p hpw
        rw [hfeed, m3] at hpw
        have hpw' : p ∈ s1.writes := hpw
        rw [h1writes] at hpw'
        exact Or.inl hpw'
      · rw [hfeed]; exact m4
      · rw [updateRows_cons_feed env opts now [g, f, url, iu] rest st (by simp)
          hcomment (by simp)]
        have hpair : updateFeed env opts now [g, f, url, iu] st
            = (.ok (), (updateFeed env opts now [g, f, url, iu] st).2) := by
          rw [← h1]
        rw [hpair]
    | some c =>
      have hdiff : ∀ stored, getFile s1.files (infoPath opts g f) = some stored →
          ¬ env.hash c = env.hash stored.content := by
        intro stored hstored
        rw [h1files] at hstored
        exact hnoskip iu rfl c stored hif hstored
      have hfeed : updateFeed env opts now [g, f, url, iu] st
          = mainPart env opts now g f url
              (copyFile (infoPath opts g f) c now
                { s1 with fetchLog := s1.fetchLog ++ [iu] }) := by
        rw [updateFeed4_eq env opts now g f url iu st hp, ← hs1,
          infoStep_store env opts now g f iu s1 c hif hdiff]
      set s2 := copyFile (infoPath opts g f) c now
        { s1 with fetchLog := s1.fetchLog ++ [iu] } with hs2
      have hs2zp : getFile s2.files (zipPath opts g f)
          = getFile st.files (zipPath opts g f) := by
        rw [hs2, copyFile_files,
          getFile_setFile_other _ _ _ _ (zipPath_ne_infoPath opts g f)]
        show getFile s1.files (zipPath opts g f) = _
        rw [h1files]
      obtain ⟨m1, m2, m3, m4⟩ := hMP s2 hs2zp
      have h1 : (updateFeed env opts now [g, f, url, iu] st).1 = .ok () := by
        rw [hfeed]; exact m1
      refine ⟨h1, ?_, ?_, ?_, ?_⟩
      · intro p hpne
        rw [hfeed, m2, hs2, copyFile_files, getFile_setFile_other _ _ _ _ hpne]
        show getFile s1.files p = getFile st.files p
        rw [h1files]
      · intro p hpw
        rw [hfeed, m3] at hpw
        have hw2 : p ∈ s1.writes ++ [infoPath opts g f] := by
          have hwr : s2.writes = s1.writes ++ [infoPath opts g f] := by
            rw [hs2, copyFile_writes]
          rw [← hwr]
          exact hpw
        rcases List.mem_append.mp hw2 with h | h
        · exact Or.inl (h1writes ▸ h)
        · exact Or.inr (by simpa using h)
      · rw [hfeed]; exact m4
      · rw [updateRows_cons_feed env opts now [g, f, url, iu] rest st (by simp)
          hcomment (by simp)]
        have hpair : updateFeed env opts now [g, f, url, iu] st
            = (.ok (), (updateFeed env opts now [g, f, url, iu] st).2) := by
          rw [← h1]
        rw [hpair]

theorem c3_fetch_failure_isolated_witness :
    (updateFeed c10Env benignOpts 5 ["A", "f", "ftp://u", "iu"]
        (initSt [] [])).2.foundError = some true :=
  (c3_fetch_failure_isolated c10Env benignOpts 5 ["A", "f", "ftp://u", "iu"]
    "A" "f" "ftp://u" [] (initSt [] [])
    (Or.inr ⟨"iu", rfl⟩) (by decide) (by decide) (by decide) (by decide)
    (fun iu' h c stored hc hst => by simp [initSt, getFile] at hst)
    (fun h => absurd h (by decide))).2.2.2.1

/-! ### Claim C7: monotonicity of the updated-graph set -/

theorem infoStep_updated (env : Env) (opts : Opts) (now : Int)
    (g f iu : String) (st : St) :
    (infoStep env opts now g f iu st).2.updated = st.updated := by
  unfold infoStep
  cases hf : env.fetchOutcome iu with
  | none => rw [fetchFile_none env iu st hf]
  | some c =>
    rw [fetchFile_some env iu st c hf]
    dsimp only
    cases hgf : getFile st.files (infoPath opts g f) with
    | none => rfl
    | some stored =>
      by_cases hh : env.hash c = env.hash stored.content <;> simp [hh]

theorem fetchAndCompare_updated_mem (env : Env) (opts : Opts) (now : Int)
    (g f url : String) (st : St) (x : String) (h : x ∈ st.updated) :
    x ∈ (fetchAndCompare env opts now g f url st).2.updated := by
  unfold fetchAndCompare
  split
  · cases hr : env.localRead (urlPath url) with
    | none => exact h
    | some c =>
      show x ∈ (compareAndInstall env opts now g (zipPath opts g f) c st).updated
      exact compareAndInstall_updated_mem env opts now g _ c st x h
  · cases hf : env.fetchOutcome url with
    | none => rw [fetchFile_none env url st hf]; exact h
    | some c =>
      rw [fetchFile_some env url st c hf]
      show x ∈ (compareAndInstall env opts now g (zipPath opts g f) c
          { st with fetchLog := st.fetchLog ++ [url] }).updated
      exact compareAndInstall_updated_mem env opts now g _ c _ x h

theorem mainPart_updated_mem (env : Env) (opts : Opts) (now : Int)
    (g f url : String) (st : St) (x : String) (h : x ∈ st.updated) :
    x ∈ (mainPart env opts now g f url st).2.updated := by
  rw [mainPart_eq]
  split
  · cases probeResult env url with
    | error e => exact h
    | ok remote =>
      dsimp only
      split
      · exact h
      · exact fetchAndCompare_updated_mem env opts now g f url _ x h
  · exact fetchAndCompare_updated_mem env opts now g f url st x h

theorem updateFeed_updated_mem (env : Env) (opts : Opts) (now : Int)
    (row : List String) (st : St) (x : String) (h : x ∈ st.updated) :
    x ∈ (updateFeed env opts now row st).2.updated := by
  simp only [updateFeed]
  split
  case isFalse => exact h
  case isTrue hp =>
    set s0 := (if opts.force = true
        then addGraph (row.getD 0 "") (createGraphDir opts (row.getD 0 "") st)
        else createGraphDir opts (row.getD 0 "") st) with hs0
    have hmem0 : x ∈ s0.updated := by
      rw [hs0]
      by_cases hf' : opts.force
      · rw [if_pos (by simpa using hf')]
        exact addGraph_mem_mono _ _ _ (by rw [createGraphDir_updated]; exact h)
      · rw [if_neg (by simpa using hf')]
        rw [createGraphDir_updated]; exact h
    split
    · cases hi : infoStep env opts now (row.getD 0 "") (row.getD 1 "")
          (row.getD 3 "") s0 with
      | mk b st' =>
        have hup := infoStep_updated env opts now (row.getD 0 "")
          (row.getD 1 "") (row.getD 3 "") s0
        rw [hi] at hup
        cases b
        · dsimp only
          exact mainPart_updated_mem env opts now _ _ _ st' x (by rw [hup]; exact hmem0)
        · dsimp only
          rw [hup]; exact hmem0
    · exact mainPart_updated_mem env opts now _ _ _ s0 x hmem0

theorem updateRows_updated_mem (env : Env) (opts : Opts) (now : Int)
    (rows : List (List String)) (st : St) (x : String) (h : x ∈ st.updated) :
    x ∈ (updateRows env opts now rows st).2.updated := by
  induction rows generalizing st with
  | nil => exact h
  | cons row rest ih =>
    rw [updateRows]
    split
    · exact ih st h
    split
    · exact ih st h
    split
    · exact ih _ (by simpa using h)
    · cases hu : updateFeed env opts now row st with
      | mk r st' =>
        have hmem := updateFeed_updated_mem env opts now row st x h
        rw [hu] at hmem
        cases r with
        | ok u => exact ih st' hmem
        | error e => exact hmem

theorem updateGraph_updated (env : Env) (opts : Opts) (g : String) (st : St) :
    (updateGraph env opts g st).updated = st.updated := by
  simp only [updateGraph, deleteGraphDir]
  split
  · rfl
  · split
    · rfl
    · split <;> rfl

theorem foldl_updateGraph_updated (env : Env) (opts : Opts)
    (l : List String) (st : St) :
    (l.foldl (fun s g => updateGraph env opts g s) st).updated = st.updated := by
  induction l generalizing st with
  | nil => rfl
  | cons a l ih => rw [List.foldl_cons, ih, updateGraph_updated]

theorem updateGraphs_updated (env : Env) (opts : Opts) (st : St) :
    (updateGraphs env opts st).updated = st.updated :=
  foldl_updateGraph_updated env opts st.updated st

theorem updateFeed_force_mem (env : Env) (opts : Opts) (now : Int)
    (row : List String) (st : St)
    (hforce : opts.force = true)
    (hp : passFilter opts (row.getD 0 "") = true) :
    row.getD 0 "" ∈ (updateFeed env opts now row st).2.updated := by
  simp only [updateFeed]
  rw [if_pos hp, hforce, if_pos rfl]
  set s0 := addGraph (row.getD 0 "") (createGraphDir opts (row.getD 0 "") st) with hs0
  have hmem0 : row.getD 0 "" ∈ s0.updated := by
    rw [hs0]; exact addGraph_mem_self _ _
  split
  · cases hi : infoStep env opts now (row.getD 0 "") (row.getD 1 "")
        (row.getD 3 "") s0 with
    | mk b st' =>
      have hup := infoStep_updated env opts now (row.getD 0 "")
        (row.getD 1 "") (row.getD 3 "") s0
      rw [hi] at hup
      cases b
      · dsimp only
        exact mainPart_updated_mem env opts now _ _ _ st' _ (by rw [hup]; exact hmem0)
      · dsimp only
        rw [hup]; exact hmem0
  · exact mainPart_updated_mem env opts now _ _ _ s0 _ hmem0

theorem updateRows_force_mem (env : Env) (opts : Opts) (now : Int)
    (rows : List (List String)) (st : St) (row : List String)
    (hforce : opts.force = true)
    (hlen : row.length = 3 ∨ row.length = 4)
    (hcomment : startsHash (row.getD 0 "") = false)
    (hp : passFilter opts (row.getD 0 "") = true) :
    row ∈ rows → (updateRows env opts now rows st).1 = .ok () →
    row.getD 0 "" ∈ (updateRows env opts now rows st).2.updated := by
  induction rows generalizing st with
  | nil => intro hr _; cases hr
  | cons r rest ih =>
    intro hr hok
    rw [updateRows] at hok ⊢
    rcases List.mem_cons.mp hr with hre | hre
    · subst hre
      have h0 : ¬ row.length = 0 := by rcases hlen with h | h <;> omega
      rw [if_neg h0] at hok ⊢
      rw [hcomment] at hok ⊢
      simp only [Bool.false_eq_true, if_false] at hok ⊢
      have hlen' : ¬(row.length < 3 ∨ row.length > 4) := by
        rcases hlen with h | h <;> omega
      rw [if_neg hlen'] at hok ⊢
      cases hu : updateFeed env opts now row st with
      | mk rres st' =>
        have hmem := updateFeed_force_mem env opts now row st hforce hp
        rw [hu] at hmem
        cases rres with
        | error e => exact hmem
        | ok u => exact updateRows_updated_mem env opts now rest st' _ hmem
    · by_cases h0 : r.length = 0
      · rw [if_pos h0] at hok ⊢
        exact ih st hre hok
      rw [if_neg h0] at hok ⊢
      by_cases hcm : startsHash (r.getD 0 "") = true
      · rw [if_pos hcm] at hok ⊢
        exact ih st hre hok
      rw [if_neg hcm] at hok ⊢
      by_cases hl : r.length < 3 ∨ r.length > 4
      · rw [if_pos hl] at hok ⊢
        exact ih _ hre hok
      rw [if_neg hl] at hok ⊢
      cases hu : updateFeed env opts now r st with
      | mk rres st' =>
        rw [hu] at hok
        cases rres with
        | error e => exact absurd hok (by simp)
        | ok u => exact ih st' hre hok

/-- Claim C7: when the force-rebuild flag is set, every graph referenced by a
feed row which passes the only-process-graph filter (a 3- or 4-field,
non-comment record) is in the final UpdatedGraphSet of a run that completes
without an uncaught exception — even when that feed's content is
byte-identical to the local copy or the feed is otherwise skipped as
up-to-date. -/
theorem c7_force_rebuild_marks_all (env : Env) (opts : Opts) (now : Int)
    (rows : List (List String)) (st0 : St) (row : List String)
    (hforce : opts.force = true)
    (hok : (updateFeeds env opts now rows st0).1 = .ok ())
    (hr : row ∈ rows)
    (hlen : row.length = 3 ∨ row.length = 4)
    (hcomment : startsHash (row.getD 0 "") = false)
    (hp : passFilter opts (row.getD 0 "") = true) :
    row.getD 0 "" ∈ (updateFeeds env opts now rows st0).2.updated := by
  unfold updateFeeds at hok ⊢
  cases hU : updateRows env opts now rows st0 with
  | mk r stS =>
    rw [hU] at hok
    cases r with
    | error e => exact absurd hok (by simp)
    | ok u =>
      cases u
      have hm := updateRows_force_mem env opts now rows st0 row hforce hlen
        hcomment hp hr (by rw [hU])
      rw [hU] at hm
      show row.getD 0 "" ∈ (updateGraphs env opts stS).updated
      rw [updateGraphs_updated]
      exact hm

theorem c7_force_rebuild_marks_all_witness :
    "A" ∈ (updateFeeds trivEnv forceOpts 0 [["A", "f", "ftp://u"]]
        (initSt [] [])).2.updated :=
  c7_force_rebuild_marks_all trivEnv forceOpts 0 [["A", "f", "ftp://u"]]
    (initSt [] []) ["A", "f", "ftp://u"] rfl (by decide)
    (by simp) (Or.inl rfl) (by decide) (by decide)

/-! ### Claim C8 -/

/-- Claim C8 counterexample: with a relative base directory, a failed build
does not delete the graph's cache directory.  `_update_graph` passes the full
graph path to `_delete_graph_dir`, which joins it again under
`{base}/graphs/`; with a relative base this yields a non-existent nested path
and nothing is removed (the error flag is still set). -/
theorem c8_relative_base_no_delete :
    relBaseOpts.keep = false ∧
    c8Env.build (graphDirPath relBaseOpts "A") = 1 ∧
    "otp/graphs/A" ∈ (updateGraphs c8Env relBaseOpts c8St).dirs ∧
    getFile (updateGraphs c8Env relBaseOpts c8St).files "otp/graphs/A/f.zip"
      = some ⟨[1], 0⟩ ∧
    (updateGraphs c8Env relBaseOpts c8St).foundError = some true := by
  decide

theorem isAbs_ne_empty (a : String) (ha : isAbs a = true) : a.data ≠ [] := by
  intro h
  unfold isAbs at ha
  rw [h] at ha
  simp at ha

theorem isAbs_pjoin_left (a b : String) (ha : isAbs a = true) :
    isAbs (pjoin a b) = true := by
  have hda := isAbs_ne_empty a ha
  unfold pjoin
  split
  case isTrue h => exact h
  case isFalse h =>
    split
    case isTrue h' => exact absurd (by rw [h'] : a.data = []) hda
    case isFalse h' =>
      split
      · rw [isAbs_append, if_neg hda]
        exact ha
      · rw [isAbs_append, if_neg (by rw [data_append]; simp)]
        rw [isAbs_append, if_neg hda]
        exact ha

theorem isAbs_graphDirPath (opts : Opts) (g : String)
    (h : isAbs opts.baseDir = true) : isAbs (graphDirPath opts g) = true := by
  unfold graphDirPath
  exact isAbs_pjoin_left _ _ (isAbs_pjoin_left _ _ h)

theorem pjoin_abs_right (a b : String) (hb : isAbs b = true) : pjoin a b = b := by
  unfold pjoin
  rw [if_pos hb]

theorem graphDirPath_abs_arg (opts : Opts) (p : String) (hp : isAbs p = true) :
    graphDirPath opts p = p := by
  unfold graphDirPath
  exact pjoin_abs_right _ _ hp

theorem updateGraph_success (env : Env) (opts : Opts) (g : String) (st : St)
    (h : env.build (graphDirPath opts g) = 0) :
    updateGraph env opts g st = st := by
  simp only [updateGraph]
  rw [if_pos h]

theorem foldl_updateGraph_all_success (env : Env) (opts : Opts)
    (l : List String) (st : St)
    (h : ∀ g ∈ l, env.build (graphDirPath opts g) = 0) :
    l.foldl (fun s x => updateGraph env opts x s) st = st := by
  induction l generalizing st with
  | nil => rfl
  | cons a l ih =>
    rw [List.foldl_cons, updateGraph_success env opts a st (h a (by simp))]
    exact ih st (fun g hg => h g (by simp [hg]))

theorem updateGraph_fail_gone (env : Env) (opts : Opts) (g : String) (st : St)
    (habs : isAbs opts.baseDir = true)
    (hbuild : env.build (graphDirPath opts g) ≠ 0)
    (hkeep : opts.keep = false) :
    graphDirPath opts g ∉ (updateGraph env opts g st).dirs ∧
    (updateGraph env opts g st).foundError = some true := by
  have hgp : isAbs (graphDirPath opts g) = true := isAbs_graphDirPath opts g habs
  simp only [updateGraph]
  rw [if_neg hbuild, hkeep]
  simp only [Bool.false_eq_true, if_false]
  simp only [deleteGraphDir]
  rw [graphDirPath_abs_arg opts _ hgp]
  split
  case isTrue hex =>
    refine ⟨?_, rfl⟩
    intro hmem
    have h2 := List.of_mem_filter hmem
    rw [decide_eq_true_iff] at h2
    exact h2 (Or.inl rfl)
  case isFalse hex =>
    refine ⟨?_, rfl⟩
    intro hmem
    apply hex
    unfold pathExists
    have : graphDirPath opts g ∈ st.dirs := hmem
    simp [this]

theorem updateGraph_dirs_not_mem (env : Env) (opts : Opts) (x : String)
    (st : St) (d : String) (h : d ∉ st.dirs) :
    d ∉ (updateGraph env opts x st).dirs := by
  simp only [updateGraph, deleteGraphDir]
  split
  · exact h
  · split
    · exact h
    · split
      · intro hmem
        exact h (List.mem_of_mem_filter hmem)
      · exact h

theorem updateGraph_flag_stays (env : Env) (opts : Opts) (x : String) (st : St)
    (h : st.foundError = some true) :
    (updateGraph env opts x st).foundError = some true := by
  simp only [updateGraph, deleteGraphDir]
  split
  · exact h
  · split
    · rfl
    · split <;> rfl

theorem foldl_updateGraph_dirs_not_mem (env : Env) (opts : Opts)
    (l : List String) (st : St) (d : String) (h : d ∉ st.dirs) :
    d ∉ (l.foldl (fun s x => updateGraph env opts x s) st).dirs := by
  induction l generalizing st with
  | nil => exact h
  | cons a l ih =>
    rw [List.foldl_cons]
    exact ih _ (updateGraph_dirs_not_mem env opts a st d h)

theorem foldl_updateGraph_flag_stays (env : Env) (opts : Opts)
    (l : List String) (st : St) (h : st.foundError = some true) :
    (l.foldl (fun s x => updateGraph env opts x s) st).foundError = some true := by
  induction l generalizing st with
  | nil => exact h
  | cons a l ih =>
    rw [List.foldl_cons]
    exact ih _ (updateGraph_flag_stays env opts a st h)

theorem foldl_updateGraph_fail (env : Env) (opts : Opts)
    (habs : isAbs opts.baseDir = true) (hkeep : opts.keep = false)
    (l : List String) (st : St) (g : String) (hg : g ∈ l)
    (hbuild : env.build (graphDirPath opts g) ≠ 0) :
    graphDirPath opts g ∉ (l.foldl (fun s x => updateGraph env opts x s) st).dirs ∧
    (l.foldl (fun s x => updateGraph env opts x s) st).foundError = some true := by
  induction l generalizing st with
  | nil => cases hg
  | cons a l ih =>
    rw [List.foldl_cons]
    rcases List.mem_cons.mp hg with h | h
    · subst h
      obtain ⟨h1, h2⟩ := updateGraph_fail_gone env opts g st habs hbuild hkeep
      exact ⟨foldl_updateGraph_dirs_not_mem env opts l _ _ h1,
             foldl_updateGraph_flag_stays env opts l _ h2⟩
    · exact ih _ h

/-- Claim C8 (amended): provided the base directory is an absolute path, a
graph in UpdatedGraphSet whose rebuild command exits non-zero sets the run
error flag and — unless keep-failed-graphs is set — its cache directory
`{base_dir}/graphs/{graph}` no longer exists after orchestration; when every
rebuild command exits zero, the orchestration changes nothing (directories
preserved, no error flagged).  With a relative base directory the cleanup
joins a wrong nested path and the failed graph's directory survives. -/
theorem c8_rebuild_failure_cleanup (env : Env) (opts : Opts) (st : St)
    (habs : isAbs opts.baseDir = true) :
    ((∀ g ∈ st.updated, env.build (graphDirPath opts g) = 0) →
        updateGraphs env opts st = st) ∧
    (opts.keep = false →
      ∀ g ∈ st.updated, env.build (graphDirPath opts g) ≠ 0 →
        graphDirPath opts g ∉ (updateGraphs env opts st).dirs ∧
        (updateGraphs env opts st).foundError = some true) := by
  constructor
  · intro h
    exact foldl_updateGraph_all_success env opts st.updated st h
  · intro hkeep g hg hbuild
    exact foldl_updateGraph_fail env opts habs hkeep st.updated st g hg hbuild

theorem c8_rebuild_failure_cleanup_witness :
    graphDirPath benignOpts "A" ∉ (updateGraphs c8Env benignOpts c8wSt).dirs ∧
    (updateGraphs c8Env benignOpts c8wSt).foundError = some true :=
  (c8_rebuild_failure_cleanup c8Env benignOpts c8wSt (by decide)).2 rfl "A"
    (by decide) (by decide)

/-! ### Claim C9: second-run quiescence machinery -/

theorem infoStep_files_other (env : Env) (opts : Opts) (now : Int)
    (g f iu : String) (st : St) (p : String) (hp : p ≠ infoPath opts g f) :
    getFile (infoStep env opts now g f iu st).2.files p = getFile st.files p := by
  unfold infoStep
  cases hf : env.fetchOutcome iu with
  | none => rw [fetchFile_none env iu st hf]
  | some c =>
    rw [fetchFile_some env iu st c hf]
    dsimp only
    cases hgf : getFile st.files (infoPath opts g f) with
    | none => simp [copyFile_files, getFile_setFile_other _ _ _ _ hp]
    | some stored =>
      by_cases hh : env.hash c = env.hash stored.content
      · simp [hh]
      · simp [hh, copyFile_files, getFile_setFile_other _ _ _ _ hp]

theorem updateFeed_files_other (env : Env) (opts : Opts) (now : Int)
    (row : List String) (st : St) (p : String)
    (hzp : p ≠ zipPath opts (row.getD 0 "") (row.getD 1 ""))
    (hip : p ≠ infoPath opts (row.getD 0 "") (row.getD 1 "")) :
    getFile (updateFeed env opts now row st).2.files p = getFile st.files p := by
  simp only [updateFeed]
  split
  case isFalse => rfl
  case isTrue hp' =>
    set s0 := (if opts.force = true
        then addGraph (row.getD 0 "") (createGraphDir opts (row.getD 0 "") st)
        else createGraphDir opts (row.getD 0 "") st) with hs0
    have h0 : s0.files = st.files := by
      rw [hs0]; by_cases hf' : opts.force <;> simp [hf']
    split
    · cases hi : infoStep env opts now (row.getD 0 "") (row.getD 1 "")
          (row.getD 3 "") s0 with
      | mk b st' =>
        have hio := infoStep_files_other env opts now (row.getD 0 "")
          (row.getD 1 "") (row.getD 3 "") s0 p hip
        rw [hi] at hio
        cases b
        · exact (mainPart_files_other env opts now _ _ _ st' p hzp).trans
            (hio.trans (by rw [h0]))
        · exact hio.trans (by rw [h0])
    · exact (mainPart_files_other env opts now _ _ _ s0 p hzp).trans (by rw [h0])

theorem updateRows_files_other (env : Env) (opts : Opts) (now : Int)
    (rows : List (List String)) (st : St) (p : String)
    (h : ∀ r ∈ rows, p ∉ rowTargets opts r) :
    getFile (updateRows env opts now rows st).2.files p = getFile st.files p := by
  induction rows generalizing st with
  | nil => rfl
  | cons r rest ih =>
    rw [updateRows]
    have hr := h r (by simp)
    have hrest : ∀ r' ∈ rest, p ∉ rowTargets opts r' :=
      fun r' hr' => h r' (by simp [hr'])
    have hzp : p ≠ zipPath opts (r.getD 0 "") (r.getD 1 "") :=
      fun he => hr (by rw [rowTargets]; simp [he])
    have hip : p ≠ infoPath opts (r.getD 0 "") (r.getD 1 "") :=
      fun he => hr (by rw [rowTargets]; simp [he])
    split
    · exact ih st hrest
    split
    · exact ih st hrest
    split
    · exact ih _ hrest
    · cases hu : updateFeed env opts now r st with
      | mk rres st' =>
        have hf := updateFeed_files_other env opts now r st p hzp hip
        rw [hu] at hf
        cases rres with
        | ok u => exact (ih st' hrest).trans hf
        | error e => exact hf

theorem compareAndInstall_post_hash (env : Env) (opts : Opts) (now : Int)
    (g lp : String) (c : Content) (st : St) :
    ∃ loc', getFile (compareAndInstall env opts now g lp c st).files lp = some loc' ∧
      env.hash loc'.content = env.hash c := by
  unfold compareAndInstall
  cases hl : getFile st.files lp with
  | none =>
    refine ⟨⟨c, now⟩, ?_, rfl⟩
    show getFile (addGraph g (copyFile lp c now st)).files lp = some ⟨c, now⟩
    rw [addGraph_files, copyFile_files]
    exact getFile_setFile_same _ _ _
  | some loc =>
    by_cases hh : env.hash loc.content = env.hash c
    · refine ⟨loc, ?_, hh⟩
      show getFile (if env.hash loc.content = env.hash c then st
          else addGraph g (copyFile lp c now st)).files lp = some loc
      rw [if_pos hh]
      exact hl
    · refine ⟨⟨c, now⟩, ?_, rfl⟩
      show getFile (if env.hash loc.content = env.hash c then st
          else addGraph g (copyFile lp c now st)).files lp = some ⟨c, now⟩
      rw [if_neg hh, addGraph_files, copyFile_files]
      exact getFile_setFile_same _ _ _

theorem fetchAndCompare_quiet (env : Env) (opts : Opts) (now now' : Int)
    (g f url : String) (stA st stA' : St)
    (hrun : fetchAndCompare env opts now g f url stA = (.ok (), stA'))
    (hzp : getFile st.files (zipPath opts g f)
        = getFile stA'.files (zipPath opts g f)) :
    (fetchAndCompare env opts now' g f url st).1 = .ok () ∧
    (fetchAndCompare env opts now' g f url st).2.files = st.files ∧
    (fetchAndCompare env opts now' g f url st).2.updated = st.updated ∧
    (fetchAndCompare env opts now' g f url st).2.writes = st.writes := by
  by_cases hfile : urlScheme url = "file"
  · cases hr : env.localRead (urlPath url) with
    | none =>
      rw [fetchAndCompare_file_raise env opts now g f url stA hfile hr] at hrun
      exact absurd hrun (by simp)
    | some c =>
      rw [fetchAndCompare_file_read env opts now g f url stA c hfile hr] at hrun
      have hA' : compareAndInstall env opts now g (zipPath opts g f) c stA = stA' :=
        congrArg Prod.snd hrun
      obtain ⟨loc', hpost, hhash⟩ :=
        compareAndInstall_post_hash env opts now g (zipPath opts g f) c stA
      have hst : getFile st.files (zipPath opts g f) = some loc' := by
        rw [hzp, ← hA']
        exact hpost
      have heq := compareAndInstall_identical env opts now' g (zipPath opts g f)
        c st loc' hst hhash
      rw [fetchAndCompare_file_read env opts now' g f url st c hfile hr, heq]
      exact ⟨rfl, rfl, rfl, rfl⟩
  · cases hfo : env.fetchOutcome url with
    | none =>
      rw [fetchAndCompare_fetch_failed env opts now' g f url st hfile hfo]
      exact ⟨rfl, rfl, rfl, rfl⟩
    | some c =>
      rw [fetchAndCompare_fetch_ok env opts now g f url stA c hfile hfo] at hrun
      have hA' : compareAndInstall env opts now g (zipPath opts g f) c
          { stA with fetchLog := stA.fetchLog ++ [url] } = stA' :=
        congrArg Prod.snd hrun
      obtain ⟨loc', hpost, hhash⟩ := compareAndInstall_post_hash env opts now g
        (zipPath opts g f) c { stA with fetchLog := stA.fetchLog ++ [url] }
      have hst : getFile ({ st with fetchLog := st.fetchLog ++ [url] } : St).files
          (zipPath opts g f) = some loc' := by
        show getFile st.files (zipPath opts g f) = some loc'
        rw [hzp, ← hA']
        exact hpost
      have heq := compareAndInstall_identical env opts now' g (zipPath opts g f)
        c { st with fetchLog := st.fetchLog ++ [url] } loc' hst hhash
      rw [fetchAndCompare_fetch_ok env opts now' g f url st c hfile hfo, heq]
      exact ⟨rfl, rfl, rfl, rfl⟩

theorem mainPart_quiet (env : Env) (opts : Opts) (now now' : Int)
    (g f url : String) (stA st stA' : St)
    (hrun : mainPart env opts now g f url stA = (.ok (), stA'))
    (hzp : getFile st.files (zipPath opts g f)
        = getFile stA'.files (zipPath opts g f)) :
    (mainPart env opts now' g f url st).1 = .ok () ∧
    (mainPart env opts now' g f url st).2.files = st.files ∧
    (mainPart env opts now' g f url st).2.updated = st.updated ∧
    (mainPart env opts now' g f url st).2.writes = st.writes := by
  by_cases hs : urlScheme url = "https" ∨ urlScheme url = "http"
  · cases hpr : probeResult env url with
    | error e =>
      cases e
      rw [mainPart_probe_error env opts now g f url stA hs hpr] at hrun
      exact absurd hrun (by simp)
    | ok remote =>
      rw [mainPart_probe_ok env opts now g f url stA remote hs hpr] at hrun
      rw [mainPart_probe_ok env opts now' g f url st remote hs hpr]
      by_cases hskA : probeSkips remote (getFile stA.files (zipPath opts g f)) = true
      · rw [if_pos hskA] at hrun
        have hA' : ({ stA with headLog := stA.headLog ++ [url] } : St) = stA' :=
          congrArg Prod.snd hrun
        have hzp' : getFile st.files (zipPath opts g f)
            = getFile stA.files (zipPath opts g f) := by
          rw [hzp, ← hA']
        rw [hzp', if_pos hskA]
        exact ⟨rfl, rfl, rfl, rfl⟩
      · rw [if_neg hskA] at hrun
        by_cases hskR : probeSkips remote (getFile st.files (zipPath opts g f)) = true
        · rw [if_pos hskR]
          exact ⟨rfl, rfl, rfl, rfl⟩
        · rw [if_neg hskR]
          exact fetchAndCompare_quiet env opts now now' g f url _ _ stA' hrun hzp
  · rw [mainPart_not_http env opts now g f url stA hs] at hrun
    rw [mainPart_not_http env opts now' g f url st hs]
    exact fetchAndCompare_quiet env opts now now' g f url stA st stA' hrun hzp

/-- After a feed row has been processed successfully, re-processing it in a
later run — from any state whose zip and feed-info lookups agree with the
state the first processing left — succeeds and changes no files, no updated
set and no writes (absent force-rebuild). -/
theorem updateFeed_quiet (env : Env) (opts : Opts) (now now' : Int)
    (row : List String) (stA st stA' : St)
    (hforce : opts.force = false)
    (hrun : updateFeed env opts now row stA = (.ok (), stA'))
    (hzp : getFile st.files (zipPath opts (row.getD 0 "") (row.getD 1 ""))
        = getFile stA'.files (zipPath opts (row.getD 0 "") (row.getD 1 "")))
    (hip : getFile st.files (infoPath opts (row.getD 0 "") (row.getD 1 ""))
        = getFile stA'.files (infoPath opts (row.getD 0 "") (row.getD 1 ""))) :
    (updateFeed env opts now' row st).1 = .ok () ∧
    (updateFeed env opts now' row st).2.files = st.files ∧
    (updateFeed env opts now' row st).2.updated = st.updated ∧
    (updateFeed env opts now' row st).2.writes = st.writes := by
  by_cases hp : passFilter opts (row.getD 0 "") = true
  case neg =>
    rw [updateFeed_not_pass env opts now' row st (by simpa using hp)]
    exact ⟨rfl, rfl, rfl, rfl⟩
  case pos =>
    simp only [updateFeed] at hrun ⊢
    rw [if_pos hp, hforce] at hrun
    rw [if_pos hp, hforce]
    simp only [Bool.false_eq_true, if_false] at hrun ⊢
    set gg := row.getD 0 "" with hgg
    set ff := row.getD 1 "" with hff
    set uu := row.getD 2 "" with huu
    set iu := row.getD 3 "" with hiu
    set sA := createGraphDir opts gg stA with hsA
    set sR := createGraphDir opts gg st with hsR
    have hfR : sR.files = st.files := by rw [hsR, createGraphDir_files]
    have huR : sR.updated = st.updated := by rw [hsR, createGraphDir_updated]
    have hwR : sR.writes = st.writes := by rw [hsR, createGraphDir_writes]
    by_cases h4 : row.length = 4
    · rw [if_pos h4] at hrun ⊢
      cases hif : env.fetchOutcome iu with
      | none =>
        rw [infoStep_fetch_failed env opts now gg ff iu sA hif] at hrun
        rw [infoStep_fetch_failed env opts now' gg ff iu sR hif]
        have hrunM : mainPart env opts now gg ff uu { sA with fetchLog := sA.fetchLog ++ [iu], foundError := some true }
            = (.ok (), stA') := hrun
        have hzpR : getFile ({ sR with fetchLog := sR.fetchLog ++ [iu], foundError := some true } : St).files (zipPath opts gg ff)
            = getFile stA'.files (zipPath opts gg ff) := by
          show getFile sR.files (zipPath opts gg ff) = _
          rw [hfR]
          exact hzp
        obtain ⟨q1, q2, q3, q4⟩ := mainPart_quiet env opts now now' gg ff uu
          _ _ stA' hrunM hzpR
        have hfR2 : ({ sR with fetchLog := sR.fetchLog ++ [iu], foundError := some true } : St).files = st.files := hfR
        have huR2 : ({ sR with fetchLog := sR.fetchLog ++ [iu], foundError := some true } : St).updated = st.updated := huR
        have hwR2 : ({ sR with fetchLog := sR.fetchLog ++ [iu], foundError := some true } : St).writes = st.writes := hwR
        exact ⟨q1, q2.trans hfR2, q3.trans huR2, q4.trans hwR2⟩
      | some c =>
        cases hstA : getFile sA.files (infoPath opts gg ff) with
        | some storedA =>
          by_cases hhA : env.hash c = env.hash storedA.content
          · rw [infoStep_identical env opts now gg ff iu sA c storedA hif hstA hhA] at hrun
            have hA' : ({ sA with fetchLog := sA.fetchLog ++ [iu] } : St) = stA' :=
              congrArg Prod.snd hrun
            have hstR : getFile sR.files (infoPath opts gg ff) = some storedA := by
              rw [hfR, hip, ← hA']
              show getFile sA.files (infoPath opts gg ff) = some storedA
              exact hstA
            rw [infoStep_identical env opts now' gg ff iu sR c storedA hif hstR hhA]
            exact ⟨rfl, hfR, huR, hwR⟩
          · rw [infoStep_store env opts now gg ff iu sA c hif
              (fun s' h' => by rw [hstA] at h'; cases h'; exact hhA)] at hrun
            have hrunM : mainPart env opts now gg ff uu
                (copyFile (infoPath opts gg ff) c now
                  { sA with fetchLog := sA.fetchLog ++ [iu] })
                = (.ok (), stA') := hrun
            have hipA : getFile stA'.files (infoPath opts gg ff) = some ⟨c, now⟩ := by
              have hfr := mainPart_files_other env opts now gg ff uu
                (copyFile (infoPath opts gg ff) c now
                  { sA with fetchLog := sA.fetchLog ++ [iu] })
                (infoPath opts gg ff)
                (fun he => (zipPath_ne_infoPath opts gg ff) he.symm)
              rw [hrunM] at hfr
              have h' : getFile stA'.files (infoPath opts gg ff)
                  = getFile (copyFile (infoPath opts gg ff) c now
                      { sA with fetchLog := sA.fetchLog ++ [iu] }).files
                      (infoPath opts gg ff) := hfr
              rw [h', copyFile_files]
              exact getFile_setFile_same _ _ _
            have hstR : getFile sR.files (infoPath opts gg ff) = some ⟨c, now⟩ := by
              rw [hfR, hip, hipA]
            rw [infoStep_identical env opts now' gg ff iu sR c ⟨c, now⟩ hif hstR rfl]
            exact ⟨rfl, hfR, huR, hwR⟩
        | none =>
          rw [infoStep_store env opts now gg ff iu sA c hif
            (fun s' h' => by rw [hstA] at h'; cases h')] at hrun
          have hrunM : mainPart env opts now gg ff uu
              (copyFile (infoPath opts gg ff) c now
                { sA with fetchLog := sA.fetchLog ++ [iu] })
              = (.ok (), stA') := hrun
          have hipA : getFile stA'.files (infoPath opts gg ff) = some ⟨c, now⟩ := by
            have hfr := mainPart_files_other env opts now gg ff uu
              (copyFile (infoPath opts gg ff) c now
                { sA with fetchLog := sA.fetchLog ++ [iu] })
              (infoPath opts gg ff)
              (fun he => (zipPath_ne_infoPath opts gg ff) he.symm)
            rw [hrunM] at hfr
            have h' : getFile stA'.files (infoPath opts gg ff)
                = getFile (copyFile (infoPath opts gg ff) c now
                    { sA with fetchLog := sA.fetchLog ++ [iu] }).files
                    (infoPath opts gg ff) := hfr
            rw [h', copyFile_files]
            exact getFile_setFile_same _ _ _
          have hstR : getFile sR.files (infoPath opts gg ff) = some ⟨c, now⟩ := by
            rw [hfR, hip, hipA]
          rw [infoStep_identical env opts now' gg ff iu sR c ⟨c, now⟩ hif hstR rfl]
          exact ⟨rfl, hfR, huR, hwR⟩
    · rw [if_neg h4] at hrun ⊢
      have hrunM : mainPart env opts now gg ff uu sA = (.ok (), stA') := hrun
      have hzpR : getFile sR.files (zipPath opts gg ff)
          = getFile stA'.files (zipPath opts gg ff) := by
        rw [hfR]
        exact hzp
      obtain ⟨q1, q2, q3, q4⟩ := mainPart_quiet env opts now now' gg ff uu
        sA sR stA' hrunM hzpR
      exact ⟨q1, q2.trans hfR, q3.trans huR, q4.trans hwR⟩

theorem updateRows_quiet (env : Env) (opts : Opts) (now₁ now₂ : Int)
    (rows : List (List String)) :
    ∀ (stA st : St),
    opts.force = false →
    List.Pairwise (fun r r' => ∀ p ∈ rowTargets opts r, p ∉ rowTargets opts r') rows →
    (updateRows env opts now₁ rows stA).1 = .ok () →
    st.files = (updateRows env opts now₁ rows stA).2.files →
    (updateRows env opts now₂ rows st).1 = .ok () ∧
    (updateRows env opts now₂ rows st).2.files = st.files ∧
    (updateRows env opts now₂ rows st).2.updated = st.updated ∧
    (updateRows env opts now₂ rows st).2.writes = st.writes := by
  induction rows with
  | nil => intro stA st _ _ _ _; exact ⟨rfl, rfl, rfl, rfl⟩
  | cons r rest ih =>
    intro stA st hforce hdisj hok hfiles
    rw [updateRows] at hok hfiles ⊢
    by_cases h0 : r.length = 0
    · rw [if_pos h0] at hok hfiles ⊢
      exact ih stA st hforce hdisj.of_cons hok hfiles
    rw [if_neg h0] at hok hfiles ⊢
    by_cases hcm : startsHash (r.getD 0 "") = true
    · rw [if_pos hcm] at hok hfiles ⊢
      exact ih stA st hforce hdisj.of_cons hok hfiles
    rw [if_neg hcm] at hok hfiles ⊢
    by_cases hl : r.length < 3 ∨ r.length > 4
    · rw [if_pos hl] at hok hfiles ⊢
      exact ih _ _ hforce hdisj.of_cons hok hfiles
    · rw [if_neg hl] at hok hfiles ⊢
      cases huA : updateFeed env opts now₁ r stA with
      | mk resA stA1 =>
        rw [huA] at hok hfiles
        cases resA with
        | error e => exact absurd hok (by simp)
        | ok u =>
          cases u
          have hdr : ∀ r' ∈ rest, ∀ p ∈ rowTargets opts r, p ∉ rowTargets opts r' :=
            fun r' hr' p hp => (List.pairwise_cons.mp hdisj).1 r' hr' p hp
          have hzp : getFile st.files (zipPath opts (r.getD 0 "") (r.getD 1 ""))
              = getFile stA1.files (zipPath opts (r.getD 0 "") (r.getD 1 "")) := by
            rw [hfiles]
            exact updateRows_files_other env opts now₁ rest stA1 _
              (fun r' hr' => hdr r' hr' _ (by simp [rowTargets]))
          have hip : getFile st.files (infoPath opts (r.getD 0 "") (r.getD 1 ""))
              = getFile stA1.files (infoPath opts (r.getD 0 "") (r.getD 1 "")) := by
            rw [hfiles]
            exact updateRows_files_other env opts now₁ rest stA1 _
              (fun r' hr' => hdr r' hr' _ (by simp [rowTargets]))
          obtain ⟨p1, p2, p3, p4⟩ := updateFeed_quiet env opts now₁ now₂ r stA st
            stA1 hforce huA hzp hip
          cases huR : updateFeed env opts now₂ r st with
          | mk resR st1 =>
            rw [huR] at p1 p2 p3 p4
            cases resR with
            | error e => exact absurd p1 (by simp)
            | ok u' =>
              cases u'
              have p2' : st1.files = st.files := p2
              have p3' : st1.updated = st.updated := p3
              have p4' : st1.writes = st.writes := p4
              have hfiles' : st1.files = (updateRows env opts now₁ rest stA1).2.files := by
                rw [p2']
                exact hfiles
              obtain ⟨q1, q2, q3, q4⟩ := ih stA1 st1 hforce hdisj.of_cons hok hfiles'
              exact ⟨q1, q2.trans p2', q3.trans p3', q4.trans p4'⟩

/-- Claim C9 counterexample: the claim as stated fails when a rebuild fails —
the failed build deletes the graph's cache directory (absolute base dir), so
a second run with unchanged remote content re-downloads the feed and marks
the graph again: UpdatedGraphSet is non-empty and a cache write happens on
the second run (force-rebuild unset). -/
theorem c9_not_idempotent_after_failed_build :
    benignOpts.force = false ∧
    (secondRun c9Env benignOpts 5 9 [["A", "f", "ftp://u"]] [] []).updated = ["A"] ∧
    (secondRun c9Env benignOpts 5 9 [["A", "f", "ftp://u"]] [] []).writes
      = ["/otp/graphs/A/f.zip"] := by
  decide

/-- Claim C9 (amended): running the synchronizer twice in succession with no
change to any remote content yields an empty UpdatedGraphSet on the second
run, no cache-file writes on the second run, and an unchanged filesystem —
provided force-rebuild is unset, every rebuild command exits zero (so the
rebuild phase deletes no cache directory), distinct feed rows target
distinct cache paths, and the first run's sync loop completed without an
uncaught exception. -/
theorem c9_second_run_no_updates (env : Env) (opts : Opts) (now₁ now₂ : Int)
    (rows : List (List String)) (fs : Files) (ds : List String)
    (hforce : opts.force = false)
    (hbuild : ∀ p, env.build p = 0)
    (hdisj : disjointRows opts rows)
    (hok : (updateFeeds env opts now₁ rows (initSt fs ds)).1 = .ok ()) :
    (secondRun env opts now₁ now₂ rows fs ds).updated = [] ∧
    (secondRun env opts now₁ now₂ rows fs ds).writes = [] ∧
    (secondRun env opts now₁ now₂ rows fs ds).files
      = (firstRun env opts now₁ rows fs ds).files := by
  unfold updateFeeds at hok
  cases hU : updateRows env opts now₁ rows (initSt fs ds) with
  | mk r1 stS =>
    rw [hU] at hok
    cases r1 with
    | error e => exact absurd hok (by simp)
    | ok u =>
      cases u
      have hfr : firstRun env opts now₁ rows fs ds = stS := by
        unfold firstRun updateFeeds
        rw [hU]
        show updateGraphs env opts stS = stS
        exact foldl_updateGraph_all_success env opts stS.updated stS
          (fun g _ => hbuild _)
      have hok1 : (updateRows env opts now₁ rows (initSt fs ds)).1 = .ok () := by
        rw [hU]
      unfold secondRun updateFeeds
      set st0 := initSt (firstRun env opts now₁ rows fs ds).files
        (firstRun env opts now₁ rows fs ds).dirs with hst0
      have hfiles0 : st0.files = (updateRows env opts now₁ rows (initSt fs ds)).2.files := by
        rw [hst0]
        show (firstRun env opts now₁ rows fs ds).files = _
        rw [hfr, hU]
      obtain ⟨q1, q2, q3, q4⟩ := updateRows_quiet env opts now₁ now₂ rows
        (initSt fs ds) st0 hforce hdisj hok1 hfiles0
      cases hU2 : updateRows env opts now₂ rows st0 with
      | mk r2 stS2 =>
        rw [hU2] at q1 q2 q3 q4
        cases r2 with
        | error e => exact absurd q1 (by simp)
        | ok u2 =>
          cases u2
          have hupd : stS2.updated = [] := by
            have h3 : stS2.updated = st0.updated := q3
            rw [h3, hst0]
            rfl
          have hgr : updateGraphs env opts stS2 = stS2 := by
            unfold updateGraphs
            rw [hupd]
            rfl
          refine ⟨?_, ?_, ?_⟩
          · show (updateGraphs env opts stS2).updated = []
            rw [hgr]
            exact hupd
          · show (updateGraphs env opts stS2).writes = []
            rw [hgr]
            have h4 : stS2.writes = st0.writes := q4
            rw [h4, hst0]
            rfl
          · show (updateGraphs env opts stS2).files
                = (firstRun env opts now₁ rows fs ds).files
            rw [hgr]
            have h2 : stS2.files = st0.files := q2
            rw [h2, hst0]
            rfl

theorem c9_second_run_no_updates_witness :
    (secondRun c9wEnv benignOpts 5 9 [["A", "f", "ftp://u"]] [] []).updated = [] ∧
    (secondRun c9wEnv benignOpts 5 9 [["A", "f", "ftp://u"]] [] []).writes = [] ∧
    (secondRun c9wEnv benignOpts 5 9 [["A", "f", "ftp://u"]] [] []).files
      = (firstRun c9wEnv benignOpts 5 [["A", "f", "ftp://u"]] [] []).files :=
  c9_second_run_no_updates c9wEnv benignOpts 5 9 [["A", "f", "ftp://u"]] [] []
    rfl (fun p => rfl) (by simp [disjointRows]) (by decide)

end OtpUpdater
